import Mathlib

/-
  Shallow embedding of the Student Management System core
  (src/student.py, src/database.py, src/student_manager.py).

  Strings are modeled as lists of Unicode code points (`PyStr := List Nat`),
  so Python's `str.strip`, `str.upper`, `str.lower`, `str.title` and the
  email regular expression become executable functions on lists of naturals.
  Python floats are modeled as rationals.  Python exceptions are modeled with
  `Except String`.  Python dicts (the `grades` field, the statistics maps)
  are modeled as association lists with Python-dict update semantics
  (replace-in-place on existing key, append otherwise).
-/

set_option maxRecDepth 4000

abbrev PyStr := List Nat

/-- Code points of a Lean string literal, used to write concrete inputs. -/
def str (s : String) : PyStr := s.toList.map Char.toNat

/-- ASCII whitespace recognized by `str.strip` (space, tab, LF, VT, FF, CR). -/
def isWsN (c : Nat) : Bool := c = 32 || c = 9 || c = 10 || c = 11 || c = 12 || c = 13

def isDigitN (c : Nat) : Bool := 48 ≤ c && c ≤ 57

def isUpperN (c : Nat) : Bool := 65 ≤ c && c ≤ 90

def isLowerN (c : Nat) : Bool := 97 ≤ c && c ≤ 122

/-- ASCII letter (a cased character, for `str.title` word boundaries). -/
def isAlphaN (c : Nat) : Bool := isUpperN c || isLowerN c

def toUpperN (c : Nat) : Nat := if isLowerN c then c - 32 else c

def toLowerN (c : Nat) : Nat := if isUpperN c then c + 32 else c

/-- `str.upper`. -/
def pyUpper (s : PyStr) : PyStr := s.map toUpperN

/-- `str.lower`. -/
def pyLower (s : PyStr) : PyStr := s.map toLowerN

/-- Leading-whitespace removal (`str.lstrip`). -/
def lstripPy (s : PyStr) : PyStr := s.dropWhile isWsN

/-- Trailing-whitespace removal (`str.rstrip`). -/
def rstripPy (s : PyStr) : PyStr := (s.reverse.dropWhile isWsN).reverse

/-- `str.strip`. -/
def pyStrip (s : PyStr) : PyStr := rstripPy (lstripPy s)

/-- Worker for `str.title`: `prevCased` records whether the previous character
    is a cased (alphabetic) character; a cased character following a non-cased
    one is uppercased, one following a cased one is lowercased. -/
def pyTitleGo : Bool → PyStr → PyStr
  | _, [] => []
  | prevCased, c :: cs =>
    let c' := if isAlphaN c then (if prevCased then toLowerN c else toUpperN c) else c
    c' :: pyTitleGo (isAlphaN c) cs

/-- `str.title`. -/
def pyTitle (s : PyStr) : PyStr := pyTitleGo false s

def pyStartsWith : PyStr → PyStr → Bool
  | [], _ => true
  | _ :: _, [] => false
  | a :: as, b :: bs => a = b && pyStartsWith as bs

/-- Python's substring test `needle in haystack`. -/
def pyIn (needle : PyStr) : PyStr → Bool
  | [] => needle.isEmpty
  | c :: cs => pyStartsWith needle (c :: cs) || pyIn needle cs

/-- Split at the first occurrence of `sep`: `some (before, after)`, neither
    part containing that occurrence; `none` when `sep` is absent. -/
def splitFirst (sep : Nat) : PyStr → Option (PyStr × PyStr)
  | [] => none
  | c :: cs =>
    if c = sep then some ([], cs)
    else (splitFirst sep cs).map (fun p => (c :: p.1, p.2))

/-- Split at the last occurrence of `sep`. -/
def splitLast (sep : Nat) (s : PyStr) : Option (PyStr × PyStr) :=
  (splitFirst sep s.reverse).map (fun p => (p.2.reverse, p.1.reverse))

/-- Character class `[a-zA-Z0-9._%+-]` of the email pattern's local part. -/
def emailLocalChar (c : Nat) : Bool :=
  isAlphaN c || isDigitN c || c = 46 || c = 95 || c = 37 || c = 43 || c = 45

/-- Character class `[a-zA-Z0-9.-]` of the email pattern's domain part. -/
def emailDomainChar (c : Nat) : Bool :=
  isAlphaN c || isDigitN c || c = 46 || c = 45

/-- The regex from `Student._validate_email`.  The pattern forces exactly one
    `@` (neither class contains it) and an all-alphabetic TLD of length at
    least 2 after the last dot of the domain, so matching is equivalent to
    splitting at the first `@` (code 64) and the last `.` (code 46). -/
def emailMatch (s : PyStr) : Bool :=
  match splitFirst 64 s with
  | none => false
  | some (loc, dom) =>
    (!loc.isEmpty) && loc.all emailLocalChar &&
    (match splitLast 46 dom with
     | none => false
     | some (base, tld) =>
       (!base.isEmpty) && base.all emailDomainChar &&
       2 ≤ tld.length && tld.all isAlphaN)

/- ----- association lists with Python dict semantics ----- -/

def alFind {β : Type} : List (PyStr × β) → PyStr → Option β
  | [], _ => none
  | (k', v') :: rest, k => if k' = k then some v' else alFind rest k

/-- `d[k] = v`: replace in place when the key exists, append otherwise. -/
def alSet {β : Type} : List (PyStr × β) → PyStr → β → List (PyStr × β)
  | [], k, v => [(k, v)]
  | (k', v') :: rest, k, v =>
    if k' = k then (k, v) :: rest else (k', v') :: alSet rest k v

/-- `del d[k]` (a dict holds its key at most once). -/
def alDel {β : Type} (l : List (PyStr × β)) (k : PyStr) : List (PyStr × β) :=
  l.filter (fun p => ¬ p.1 = k)

def alSum (l : List (PyStr × ℚ)) : ℚ := (l.map (fun p => p.2)).sum

/-- `list.remove`: delete the first occurrence. -/
def pyErase : List PyStr → PyStr → List PyStr
  | [], _ => []
  | c :: cs, x => if c = x then cs else c :: pyErase cs x

/- ----- dates ----- -/

structure PyDate where
  year : Nat
  month : Nat
  day : Nat
deriving DecidableEq

def isLeapYear (y : Nat) : Bool := (y % 4 = 0 && y % 100 ≠ 0) || y % 400 = 0

def daysInMonth (y m : Nat) : Nat :=
  if m = 2 then (if isLeapYear y then 29 else 28)
  else if m = 4 || m = 6 || m = 9 || m = 11 then 30
  else 31

def digitsVal (s : PyStr) : Nat := s.foldl (fun a c => a * 10 + (c - 48)) 0

/-- Split on every occurrence of `sep` (like `str.split(sep)`). -/
def splitAll (sep : Nat) : PyStr → List PyStr
  | [] => [[]]
  | c :: cs =>
    let r := splitAll sep cs
    if c = sep then [] :: r
    else (c :: r.headD []) :: r.tail

/-- `datetime.strptime(s, "%Y-%m-%d")`: 1-4 year digits, 1-2 month and day
    digits, month in 1..12, day within the month, year at least 1. -/
def parseDate (s : PyStr) : Option PyDate :=
  match splitAll 45 s with
  | [ys, ms, ds] =>
    if (!ys.isEmpty) && ys.length ≤ 4 && ys.all isDigitN &&
       (!ms.isEmpty) && ms.length ≤ 2 && ms.all isDigitN &&
       (!ds.isEmpty) && ds.length ≤ 2 && ds.all isDigitN then
      let y := digitsVal ys
      let m := digitsVal ms
      let d := digitsVal ds
      if 1 ≤ y && 1 ≤ m && m ≤ 12 && 1 ≤ d && d ≤ daysInMonth y m then
        some ⟨y, m, d⟩
      else none
    else none
  | _ => none

def natDigitsPy (n : Nat) : PyStr := (Nat.toDigits 10 n).map Char.toNat

def padZeros (w : Nat) (s : PyStr) : PyStr := List.replicate (w - s.length) 48 ++ s

/-- `strftime("%Y-%m-%d")`. -/
def formatDate (d : PyDate) : PyStr :=
  padZeros 4 (natDigitsPy d.year) ++ [45] ++
  padZeros 2 (natDigitsPy d.month) ++ [45] ++
  padZeros 2 (natDigitsPy d.day)

/-- `Student.get_age`: year difference minus one when this year's birthday has
    not yet occurred. -/
def ageAt (today dob : PyDate) : Int :=
  (today.year : Int) - dob.year -
    (if today.month < dob.month ∨ (today.month = dob.month ∧ today.day < dob.day)
     then 1 else 0)

/- ----- Python numeric helpers ----- -/

/-- `int(x)` on a float: truncation toward zero. -/
def pyIntTrunc (q : ℚ) : Int := if 0 ≤ q then ⌊q⌋ else -⌊-q⌋

/-- Round to the nearest integer, ties to even (Python `round`). -/
def roundHalfEven (q : ℚ) : Int :=
  let f := ⌊q⌋
  let r := q - f
  if r < 1/2 then f
  else if 1/2 < r then f + 1
  else if f % 2 = 0 then f else f + 1

/-- `round(x, 2)`. -/
def pyRound2 (q : ℚ) : ℚ := (roundHalfEven (100 * q) : ℚ) / 100

/- ----- the Student entity (src/student.py) ----- -/

structure Student where
  student_id : PyStr
  first_name : PyStr
  last_name : PyStr
  email : PyStr
  phone : PyStr
  date_of_birth : PyStr
  address : PyStr
  major : PyStr
  gpa : ℚ
  enrollment_date : PyStr
  courses : List PyStr
  grades : List (PyStr × ℚ)
deriving DecidableEq

/-- The dictionary produced by `Student.to_dict` / consumed by
    `Student.from_dict`: exactly the twelve serialization fields. -/
structure StudentData where
  student_id : PyStr
  first_name : PyStr
  last_name : PyStr
  email : PyStr
  phone : PyStr
  date_of_birth : PyStr
  address : PyStr
  major : PyStr
  gpa : ℚ
  enrollment_date : PyStr
  courses : List PyStr
  grades : List (PyStr × ℚ)
deriving DecidableEq

/-- `Student._validate_student_id`.  Note the length check runs on the raw
    string, before stripping. -/
def validateStudentId (sid : PyStr) : Except String PyStr :=
  if sid = [] then .error ("Student ID must be a non-empty string")
  else if sid.length < 3 then .error ("Student ID must be at least 3 characters long")
  else .ok (pyUpper (pyStrip sid))

/-- `Student._validate_name` (the `fieldName` only appears in messages). -/
def validateName (name : PyStr) (fieldName : String) : Except String PyStr :=
  if name = [] then .error (fieldName ++ " must be a non-empty string")
  else if pyStrip name = [] then .error (fieldName ++ " cannot be empty or just whitespace")
  else .ok (pyTitle (pyStrip name))

/-- `Student._validate_email`. -/
def validateEmail (email : PyStr) : Except String PyStr :=
  if email = [] then .error ("Email must be a non-empty string")
  else if emailMatch email then .ok (pyLower (pyStrip email))
  else .error ("Invalid email format")

/-- `Student._validate_phone`. -/
def validatePhone (phone : PyStr) : Except String PyStr :=
  if phone = [] then .error ("Phone number must be a non-empty string")
  else if phone.countP isDigitN < 10 then .error ("Phone number must contain at least 10 digits")
  else .ok (pyStrip phone)

/-- `Student._validate_date`. -/
def validateDate (s : PyStr) : Except String PyStr :=
  if s = [] then .error ("Date must be a non-empty string")
  else match parseDate s with
    | some _ => .ok s
    | none => .error ("Date must be in YYYY-MM-DD format")

/-- `Student._validate_gpa` (arguments are typed, so the `isinstance` guard
    always passes). -/
def validateGpa (g : ℚ) : Except String ℚ :=
  if g < 0 ∨ 4 < g then .error ("GPA must be between 0.0 and 4.0") else .ok g

/-- `Student.__init__`.  `today` stands for `datetime.now()`, used only to set
    `enrollment_date`.  Validators run in source order, so the first invalid
    field reports its error and no entity is produced. -/
def construct (today : PyDate) (student_id first_name last_name email phone
    date_of_birth address major : PyStr) (gpa : ℚ) : Except String Student := do
  let sid ← validateStudentId student_id
  let fn ← validateName first_name ("First name")
  let ln ← validateName last_name ("Last name")
  let em ← validateEmail email
  let ph ← validatePhone phone
  let dob ← validateDate date_of_birth
  let g ← validateGpa gpa
  .ok { student_id := sid, first_name := fn, last_name := ln, email := em,
        phone := ph, date_of_birth := dob, address := address, major := major,
        gpa := g, enrollment_date := formatDate today, courses := [], grades := [] }

/-- `Student._update_gpa`. -/
def updateGpa (s : Student) : Student :=
  if s.grades = [] then { s with gpa := 0 }
  else { s with gpa := alSum s.grades / (s.grades.length : ℚ) }

/-- `Student.add_course`: raises on an empty name, strips the name, appends it
    when absent (returning `true`), reports `false` when already present. -/
def addCourse (s : Student) (course : PyStr) : Except String (Bool × Student) :=
  if course = [] then .error ("Course name must be a non-empty string")
  else
    let c := pyStrip course
    if c ∈ s.courses then .ok (false, s)
    else .ok (true, { s with courses := s.courses ++ [c] })

/-- `Student.remove_course`: membership test and removal use the raw argument
    (no stripping); the matching grade entry is deleted as well. -/
def removeCourse (s : Student) (course : PyStr) : Bool × Student :=
  if course ∈ s.courses then
    (true, { s with courses := pyErase s.courses course,
                    grades := alDel s.grades course })
  else (false, s)

/-- `Student.add_grade`: raises when the course is not enrolled or the value is
    out of [0, 4]; otherwise stores the grade and recomputes the GPA. -/
def addGrade (s : Student) (course : PyStr) (grade : ℚ) : Except String Student :=
  if course ∉ s.courses then .error ("Course not found in student's course list")
  else if grade < 0 ∨ 4 < grade then .error ("Grade must be between 0.0 and 4.0")
  else .ok (updateGpa { s with grades := alSet s.grades course grade })

/-- `Student.get_full_name`. -/
def getFullName (s : Student) : PyStr := s.first_name ++ [32] ++ s.last_name

/-- `Student.get_age` re-parses the stored date of birth; `none` models the
    exception raised when it does not parse (unreachable for validated
    entities). -/
def studentAge (today : PyDate) (s : Student) : Option Int :=
  (parseDate s.date_of_birth).map (ageAt today)

/-- `Student.to_dict`. -/
def toDict (s : Student) : StudentData :=
  { student_id := s.student_id, first_name := s.first_name,
    last_name := s.last_name, email := s.email, phone := s.phone,
    date_of_birth := s.date_of_birth, address := s.address, major := s.major,
    gpa := s.gpa, enrollment_date := s.enrollment_date,
    courses := s.courses, grades := s.grades }

/-- `Student.from_dict`: re-runs the full constructor validation, then installs
    the stored `enrollment_date`, `courses` and `grades` verbatim.  (The
    `data.get` defaults never fire because a `StudentData` record always
    carries every field, as `to_dict` always writes them.) -/
def fromDict (d : StudentData) : Except String Student := do
  let sid ← validateStudentId d.student_id
  let fn ← validateName d.first_name ("First name")
  let ln ← validateName d.last_name ("Last name")
  let em ← validateEmail d.email
  let ph ← validatePhone d.phone
  let dob ← validateDate d.date_of_birth
  let g ← validateGpa d.gpa
  .ok { student_id := sid, first_name := fn, last_name := ln, email := em,
        phone := ph, date_of_birth := dob, address := d.address,
        major := d.major, gpa := g, enrollment_date := d.enrollment_date,
        courses := d.courses, grades := d.grades }

/-- `Student.update_info`: processes the keyword arguments in order; recognized
    fields are re-validated (names, email, phone) or stripped free text
    (address, major); unrecognized keys are skipped.  A validation failure
    raises (the in-place partial mutation of the Python object is irrelevant to
    callers, who discard the entity and do not persist on failure). -/
def updateInfo (s : Student) : List (PyStr × PyStr) → Except String Student
  | [] => .ok s
  | (k, v) :: rest =>
    if k = str "first_name" then
      match validateName v ("First Name") with
      | .error e => .error e
      | .ok n => updateInfo { s with first_name := n } rest
    else if k = str "last_name" then
      match validateName v ("Last Name") with
      | .error e => .error e
      | .ok n => updateInfo { s with last_name := n } rest
    else if k = str "email" then
      match validateEmail v with
      | .error e => .error e
      | .ok n => updateInfo { s with email := n } rest
    else if k = str "phone" then
      match validatePhone v with
      | .error e => .error e
      | .ok n => updateInfo { s with phone := n } rest
    else if k = str "address" then
      updateInfo { s with address := pyStrip v } rest
    else if k = str "major" then
      updateInfo { s with major := pyStrip v } rest
    else updateInfo s rest

def exceptIsError {α : Type} : Except String α → Bool
  | .error _ => true
  | .ok _ => false

/- ----- the storage engine (src/database.py) ----- -/

/-- The parsed contents of the JSON database file: a list of record
    dictionaries.  File I/O is modeled as always succeeding here; the
    backup/atomicity behaviour of `_save_data` has its own model below. -/
abbrev DBState := List StudentData

/-- `StudentDatabase.add_student`: refuse when a stored record already carries
    the same `student_id` (exact comparison), otherwise append and save. -/
def addStudent (db : DBState) (s : Student) : Bool × DBState :=
  if db.any (fun r => r.student_id = s.student_id) then (false, db)
  else (true, db ++ [toDict s])

/-- `StudentDatabase.get_student`: first record whose stored id equals the
    uppercased query; deserialization failure propagates as an exception. -/
def getStudent (db : DBState) (sid : PyStr) : Except String (Option Student) :=
  match db.find? (fun r => r.student_id = pyUpper sid) with
  | none => .ok none
  | some r => (fromDict r).map some

/-- `StudentDatabase.get_all_students`: records that fail deserialization are
    skipped with a warning. -/
def getAllStudents (db : DBState) : List Student :=
  db.filterMap (fun r => (fromDict r).toOption)

def updateStudentAux (d : StudentData) : DBState → Bool × DBState
  | [] => (false, [])
  | r :: rest =>
    if r.student_id = d.student_id then (true, d :: rest)
    else
      let p := updateStudentAux d rest
      (p.1, r :: p.2)

/-- `StudentDatabase.update_student`: replace the first record with a matching
    id; `false` when no record matches. -/
def updateStudentDB (db : DBState) (s : Student) : Bool × DBState :=
  updateStudentAux (toDict s) db

def deleteStudentAux (u : PyStr) : DBState → Bool × DBState
  | [] => (false, [])
  | r :: rest =>
    if r.student_id = u then (true, rest)
    else
      let p := deleteStudentAux u rest
      (p.1, r :: p.2)

/-- `StudentDatabase.delete_student`. -/
def deleteStudent (db : DBState) (sid : PyStr) : Bool × DBState :=
  deleteStudentAux (pyUpper sid) db

/- ----- search (StudentDatabase.search_students) ----- -/

/-- A Python criterion value: a string or a number.  (Values of other types,
    and numeric strings fed to the numeric criteria via `float(value)`, are
    outside the model; the claims only involve string-valued text criteria and
    number-valued numeric criteria.) -/
inductive PyVal where
  | str (s : PyStr)
  | num (q : ℚ)
deriving DecidableEq

/-- The names of the methods `class Student` defines (beyond the dunder
    methods `__init__`/`__str__`/`__repr__`, which `isDunderName` covers).
    `hasattr(student, name)` is true for these, and `getattr` returns a bound
    method — a value that is never equal to a string or number criterion, so
    the `!=` comparison branch of `search_students` rejects the record. -/
def studentMethodNames : List PyStr :=
  [str "_validate_student_id", str "_validate_name", str "_validate_email",
   str "_validate_phone", str "_validate_date", str "_validate_gpa",
   str "add_course", str "remove_course", str "add_grade", str "_update_gpa",
   str "get_full_name", str "get_age", str "to_dict", str "from_dict",
   str "update_info"]

def pyEndsWith (suffix l : PyStr) : Bool := pyStartsWith suffix.reverse l.reverse

/-- Dunder-shaped names (`__...__`).  Every attribute a `Student` object
    carries beyond its twelve data fields and the methods in
    `studentMethodNames` is inherited or generated machinery with such a name
    (`__class__`, `__eq__`, `__dict__`, `__init__`, ...).  The model treats
    every dunder-shaped key as such an attribute whose value never equals a
    string or number criterion.  This approximates at two corners no claim
    touches: the few string-valued dunders (`__doc__`, `__module__`) would
    really take the substring branch, and a dunder-shaped name the object
    happens to lack would really be ignored. -/
def isDunderName (k : PyStr) : Bool :=
  pyStartsWith (str "__") k && pyEndsWith (str "__") k

/-- The `hasattr`/`getattr` fallback branch of `search_students`:
    case-insensitive substring match when both the attribute and the criterion
    are strings, exact equality otherwise (`gpa` against a number; the
    list/dict attributes `courses`/`grades` never equal a string or number, so
    they always mismatch).  `hasattr` is also true for the entity's methods
    and its inherited dunder attributes; their values never equal a string or
    number criterion, so such a key rejects every record. -/
def fieldCompare (st : Student) (k : PyStr) (v : PyVal) : Bool × Bool :=
  -- returns (key is an attribute, the comparison outcome)
  let strAttr : PyStr → Bool := fun a =>
    match v with
    | .str s => pyIn (pyLower s) (pyLower a)
    | .num _ => false
  if k = str "student_id" then (true, strAttr st.student_id)
  else if k = str "first_name" then (true, strAttr st.first_name)
  else if k = str "last_name" then (true, strAttr st.last_name)
  else if k = str "email" then (true, strAttr st.email)
  else if k = str "phone" then (true, strAttr st.phone)
  else if k = str "date_of_birth" then (true, strAttr st.date_of_birth)
  else if k = str "address" then (true, strAttr st.address)
  else if k = str "major" then (true, strAttr st.major)
  else if k = str "enrollment_date" then (true, strAttr st.enrollment_date)
  else if k = str "gpa" then
    (true, match v with
           | .num q => st.gpa = q
           | .str _ => false)
  else if k = str "courses" then (true, false)
  else if k = str "grades" then (true, false)
  else if k ∈ studentMethodNames ∨ isDunderName k = true then (true, false)
  else (false, true)

/-- One criterion of `search_students`.  `none` models an exception (a numeric
    criterion fed a string, or an age criterion on an unparsable stored date);
    `some b` is the match outcome. -/
def matchesCrit (today : PyDate) (st : Student) : PyStr × PyVal → Option Bool
  | (k, v) =>
    if k = str "name" then
      match v with
      | .str s => some (pyIn (pyLower s) (pyLower (getFullName st)))
      | .num _ => none
    else if k = str "major" then
      match v with
      | .str s => some (pyIn (pyLower s) (pyLower st.major))
      | .num _ => none
    else if k = str "email" then
      match v with
      | .str s => some (pyIn (pyLower s) (pyLower st.email))
      | .num _ => none
    else if k = str "gpa_min" then
      match v with
      | .num q => some (decide (¬ st.gpa < q))
      | .str _ => none
    else if k = str "gpa_max" then
      match v with
      | .num q => some (decide (¬ q < st.gpa))
      | .str _ => none
    else if k = str "age_min" then
      match v, studentAge today st with
      | .num q, some a => some (decide (¬ a < pyIntTrunc q))
      | _, _ => none
    else if k = str "age_max" then
      match v, studentAge today st with
      | .num q, some a => some (decide (¬ pyIntTrunc q < a))
      | _, _ => none
    else
      let p := fieldCompare st k v
      if p.1 then some p.2 else some true

/-- The criteria loop for one student: `and` with early exit on the first
    mismatch (so a criterion after a mismatch is never evaluated, and cannot
    raise). -/
def matchAll (today : PyDate) (st : Student) : List (PyStr × PyVal) → Option Bool
  | [] => some true
  | c :: rest =>
    match matchesCrit today st c with
    | none => none
    | some false => some false
    | some true => matchAll today st rest

def searchFilter (today : PyDate) (crit : List (PyStr × PyVal)) :
    List Student → Option (List Student)
  | [] => some []
  | st :: rest =>
    match matchAll today st crit with
    | none => none
    | some b =>
      (searchFilter today crit rest).map (fun r => if b then st :: r else r)

/-- `StudentDatabase.search_students`. -/
def searchStudents (today : PyDate) (db : DBState)
    (crit : List (PyStr × PyVal)) : Option (List Student) :=
  searchFilter today crit (getAllStudents db)

/- ----- statistics (StudentDatabase.get_statistics) ----- -/

structure AgeDist where
  r18_20 : Nat
  r21_25 : Nat
  r26_30 : Nat
  r30plus : Nat
deriving DecidableEq

structure Stats where
  total_students : Nat
  average_gpa : ℚ
  majors : List (PyStr × Nat)
  age_distribution : AgeDist
deriving DecidableEq

/-- `student.major or 'Undeclared'` (the empty string is falsy). -/
def majorLabel (st : Student) : PyStr :=
  if st.major = [] then str "Undeclared" else st.major

def alGet0 (l : List (PyStr × Nat)) (k : PyStr) : Nat := (alFind l k).getD 0

/-- `majors[major] = majors.get(major, 0) + 1`. -/
def alBump (l : List (PyStr × Nat)) (k : PyStr) : List (PyStr × Nat) :=
  alSet l k (alGet0 l k + 1)

/-- The age-bucket `if/elif/else` chain; everything unmatched (including ages
    below 18) lands in the `30+` bucket. -/
def bumpAge (d : AgeDist) (a : Int) : AgeDist :=
  if 18 ≤ a ∧ a ≤ 20 then { d with r18_20 := d.r18_20 + 1 }
  else if 21 ≤ a ∧ a ≤ 25 then { d with r21_25 := d.r21_25 + 1 }
  else if 26 ≤ a ∧ a ≤ 30 then { d with r26_30 := d.r26_30 + 1 }
  else { d with r30plus := d.r30plus + 1 }

def ageFold (today : PyDate) : List Student → AgeDist → Option AgeDist
  | [], d => some d
  | st :: rest, d =>
    match studentAge today st with
    | none => none
    | some a => ageFold today rest (bumpAge d a)

/-- `StudentDatabase.get_statistics`.  (For the empty collection the source
    returns empty dicts for `majors`/`age_distribution`; the all-zero
    `AgeDist` stands for the empty histogram dict.) -/
def getStatistics (today : PyDate) (db : DBState) : Option Stats :=
  let students := getAllStudents db
  if students = [] then some ⟨0, 0, [], ⟨0, 0, 0, 0⟩⟩
  else
    let withGpa := students.filter (fun s => decide (0 < s.gpa))
    let avg := if 0 < withGpa.length
               then (withGpa.map (fun s => s.gpa)).sum / (withGpa.length : ℚ)
               else 0
    let majors := students.foldl (fun m s => alBump m (majorLabel s)) []
    (ageFold today students ⟨0, 0, 0, 0⟩).map
      (fun dist => ⟨students.length, pyRound2 avg, majors, dist⟩)

/- ----- the manager facade (src/student_manager.py) ----- -/

/-- `StudentManager.update_student`: fetch the canonical entity, apply
    `update_info`, re-persist.  Every exception is caught and turned into a
    failure outcome without persisting. -/
def managerUpdateStudent (db : DBState) (sid : PyStr)
    (upd : List (PyStr × PyStr)) : DBState × Bool :=
  match getStudent db sid with
  | .error _ => (db, false)
  | .ok none => (db, false)
  | .ok (some st) =>
    match updateInfo st upd with
    | .error _ => (db, false)
    | .ok st' =>
      let p := updateStudentDB db st'
      (p.2, p.1)

/- ----- the persistence model for `_save_data` / `_create_backup` ----- -/

/-- On-disk state: the main database file's raw text and the backup
    directory's contents (each backup a full copy of a previous main file). -/
structure FileSys where
  main : PyStr
  backups : List PyStr
deriving DecidableEq

/-- How the physical write of `_save_data` ends: it either completes, or the
    stream raises after `n` characters have been written.  `open(db_file, 'w')`
    truncates the file first and `json.dump` streams into it, so a failure
    leaves exactly the prefix written so far. -/
inductive WriteOutcome where
  | completed
  | failedAfter (n : Nat)
deriving DecidableEq

/-- `StudentDatabase._create_backup`: copy the current main file verbatim into
    the backup directory; on failure (`ok = false`) only a warning is printed
    and the state is unchanged. -/
def createBackup (fs : FileSys) (ok : Bool) : FileSys :=
  if ok then { fs with backups := fs.backups ++ [fs.main] } else fs

/-- `StudentDatabase._save_data` writing serialized `text`: back up first
    (non-fatal on failure), then truncate-and-stream the new text; returns
    `true` on completion and `false` when the write raises. -/
def saveDataFS (text : PyStr) (fs : FileSys) (backupOk : Bool)
    (oc : WriteOutcome) : FileSys × Bool :=
  let fs1 := createBackup fs backupOk
  match oc with
  | .completed => ({ fs1 with main := text }, true)
  | .failedAfter n => ({ fs1 with main := text.take n }, false)

/- ----- auxiliary predicates used by the theorems ----- -/

/-- A student every validator accepts unchanged: this is what "valid entity"
    means for the storage layer, and it makes `from_dict (to_dict s)` the
    identity. -/
def Wellformed (s : Student) : Prop :=
  validateStudentId s.student_id = .ok s.student_id ∧
  validateName s.first_name ("First name") = .ok s.first_name ∧
  validateName s.last_name ("Last name") = .ok s.last_name ∧
  validateEmail s.email = .ok s.email ∧
  validatePhone s.phone = .ok s.phone ∧
  validateDate s.date_of_birth = .ok s.date_of_birth ∧
  validateGpa s.gpa = .ok s.gpa

deriving instance DecidableEq for Except

instance (s : Student) : Decidable (Wellformed s) := by
  unfold Wellformed
  infer_instance

/-- Every graded course appears in the course list. -/
def GradesInv (s : Student) : Prop := ∀ p ∈ s.grades, p.1 ∈ s.courses

instance (s : Student) : Decidable (GradesInv s) := by
  unfold GradesInv
  infer_instance

/-- The recognized keys of `update_info`. -/
def updatableKeys : List PyStr :=
  [str "first_name", str "last_name", str "email", str "phone",
   str "address", str "major"]

/-- Criteria keys with dedicated branches in `search_students`, plus the
    entity's data attributes reachable through the `hasattr` fallback; any
    other key is ignored by the search. -/
def searchKeyList : List PyStr :=
  [str "name", str "major", str "email", str "gpa_min", str "gpa_max",
   str "age_min", str "age_max", str "student_id", str "first_name",
   str "last_name", str "phone", str "date_of_birth", str "address",
   str "enrollment_date", str "gpa", str "courses", str "grades"]

/-- Age-bucket membership: `18-20`. -/
def inB1 (a : Int) : Prop := 18 ≤ a ∧ a ≤ 20

/-- Age-bucket membership: `21-25`. -/
def inB2 (a : Int) : Prop := 21 ≤ a ∧ a ≤ 25

/-- Age-bucket membership: `26-30`. -/
def inB3 (a : Int) : Prop := 26 ≤ a ∧ a ≤ 30

/-- The age `get_statistics` computes for a student (defaulting an unparsable
    stored date to 0; the statistics theorems only use it for students whose
    date of birth parses). -/
def ageOf (today : PyDate) (s : Student) : Int := (studentAge today s).getD 0

/- ----- concrete data for witnesses and counterexamples ----- -/

/-- The `datetime.now()` date used by all concrete scenarios. -/
def dToday : PyDate := ⟨2025, 6, 15⟩

/-- A well-formed (fully normalized) stored record with the given id, birth
    date, major and gpa. -/
def mkRecord (sid : String) (dob : String) (mj : String) (g : ℚ) : StudentData :=
  { student_id := str sid, first_name := str "Alice", last_name := str "Johnson",
    email := str "alice@uni.edu", phone := str "5551234567",
    date_of_birth := str dob, address := [], major := str mj, gpa := g,
    enrollment_date := str "2025-06-15", courses := [], grades := [] }

/-- A well-formed in-memory student used by several witnesses. -/
def stuBase : Student :=
  { student_id := str "STU001", first_name := str "Alice",
    last_name := str "Johnson", email := str "alice@uni.edu",
    phone := str "5551234567", date_of_birth := str "2001-03-15",
    address := [], major := [], gpa := 0,
    enrollment_date := str "2025-06-15", courses := [str "Math"], grades := [] }

/-- The student produced by `addGrade stuBase "Math" 3`. -/
def stuGraded : Student := { stuBase with grades := [(str "Math", 3)], gpa := 3 }

/-- Construct + addCourse + addGrade + removeCourse: the C1 counterexample
    sequence, returning the final entity. -/
def c1Chain : Except String Student := do
  let s ← construct dToday (str "STU001") (str "Alice") (str "Johnson")
    (str "alice@uni.edu") (str "5551234567") (str "2001-03-15") [] [] 0
  let p ← addCourse s (str "Math")
  let s2 ← addGrade p.2 (str "Math") 4
  pure (removeCourse s2 (str "Math")).2

/-- A stored record whose `grades` has a key absent from `courses` (the C2
    counterexample input to `from_dict`). -/
def c2Data : StudentData := { mkRecord "STU020" "2005-09-01" "" 0 with
  grades := [(str "Math", 3)] }

/-- A stored record holding an unstripped course name (reachable through
    `from_dict`), the C10 counterexample state. -/
def c10Data : StudentData := { mkRecord "STU010" "2005-09-01" "" 0 with
  courses := [str "  Math  "] }

/-- A well-formed student for the C3 witness. -/
def stu3 : Student :=
  { student_id := str "STU301", first_name := str "Alice",
    last_name := str "Johnson", email := str "alice@uni.edu",
    phone := str "5551234567", date_of_birth := str "2001-03-15",
    address := str "12 Elm St", major := str "Cs", gpa := 3,
    enrollment_date := str "2025-06-15",
    courses := [str "Math"], grades := [(str "Math", 3)] }

/-- 3.5, 3.6, 3.7, 3.8 and 3.9 as explicitly reduced fractions (a `Rat`
    structure literal reduces in the kernel, unlike `Rat` division). -/
def q35 : ℚ := ⟨7, 2, by norm_num, by norm_num⟩

def q36 : ℚ := ⟨18, 5, by norm_num, by norm_num⟩

def q37 : ℚ := ⟨37, 10, by norm_num, by norm_num⟩

def q38 : ℚ := ⟨19, 5, by norm_num, by norm_num⟩

def q39 : ℚ := ⟨39, 10, by norm_num, by norm_num⟩

/-- GPAs [3.8, 3.6, 3.9] with ages [19, 22, 27]: the C6 search scenario
    collection. -/
def dbSearch : DBState :=
  [ mkRecord "STU001" "2005-09-01" "Cs" q38,
    mkRecord "STU002" "2003-01-10" "Math" q36,
    mkRecord "STU003" "1998-03-05" "" q39 ]

/-- Ages [19, 22, 27, 35]: the C5 statistics scenario collection. -/
def dbAges : DBState :=
  [ mkRecord "STU001" "2005-09-01" "" 1,
    mkRecord "STU002" "2003-01-10" "" 1,
    mkRecord "STU003" "1998-03-05" "" 2,
    mkRecord "STU004" "1990-01-01" "Cs" q35 ]

/-- GPAs [1, 1, 2], whose positive-gpa mean 4/3 is not representable with two
    decimals: the C5 rounding counterexample. -/
def dbThird : DBState :=
  [ mkRecord "STU001" "2005-09-01" "" 1,
    mkRecord "STU002" "2003-01-10" "" 1,
    mkRecord "STU003" "1998-03-05" "" 2 ]

/-- Expected entity for the C7 round-trip witness. -/
def c7s : Student :=
  { student_id := str "STU001", first_name := str "Alice",
    last_name := str "Johnson", email := str "alice@uni.edu",
    phone := str "5551234567", date_of_birth := str "2001-03-15",
    address := str " 12 Elm ", major := str "cs", gpa := 2,
    enrollment_date := str "2025-06-15", courses := [], grades := [] }

instance (a : Int) : Decidable (inB1 a) := by
  unfold inB1
  infer_instance

instance (a : Int) : Decidable (inB2 a) := by
  unfold inB2
  infer_instance

instance (a : Int) : Decidable (inB3 a) := by
  unfold inB3
  infer_instance

/-- The entity from_dict builds from `c2Data`, violating the grades-subset
    invariant. -/
def c2Student : Student :=
  { student_id := str "STU020", first_name := str "Alice",
    last_name := str "Johnson", email := str "alice@uni.edu",
    phone := str "5551234567", date_of_birth := str "2005-09-01",
    address := [], major := [], gpa := 0,
    enrollment_date := str "2025-06-15", courses := [],
    grades := [(str "Math", 3)] }

/-- stuBase after a major update (C8 witness). -/
def stuMajored : Student := { stuBase with major := pyStrip (str " CS ") }

/-- A well-formed in-memory student with the given id, birth date, major and
    gpa (the from_dict image of `mkRecord`). -/
def mkStu (sid dob mj : String) (g : ℚ) : Student :=
  { student_id := str sid, first_name := str "Alice",
    last_name := str "Johnson", email := str "alice@uni.edu",
    phone := str "5551234567", date_of_birth := str dob,
    address := [], major := str mj, gpa := g,
    enrollment_date := str "2025-06-15", courses := [], grades := [] }

/-- A one-record collection with gpa 0 (C5 witness). -/
def dbW : DBState := [mkRecord "STU005" "2005-09-01" "" 0]

/-- The statistics of `dbW`. -/
def statsW : Stats := ⟨1, 0, [(str "Undeclared", 1)], ⟨1, 0, 0, 0⟩⟩

/- ===== helper lemmas: characters ===== -/

theorem toUpperN_toUpperN (c : Nat) : toUpperN (toUpperN c) = toUpperN c := by
  simp only [toUpperN, isLowerN]
  split_ifs with h1 h2 <;> simp_all <;> omega

theorem toLowerN_toLowerN (c : Nat) : toLowerN (toLowerN c) = toLowerN c := by
  simp only [toLowerN, isUpperN]
  split_ifs with h1 h2 <;> simp_all <;> omega

theorem isWsN_false_of_ge {c : Nat} (h : 33 ≤ c) : isWsN c = false := by
  simp only [isWsN]
  simp only [Bool.or_eq_false_iff, decide_eq_false_iff_not]
  omega

theorem isWsN_toUpperN (c : Nat) : isWsN (toUpperN c) = isWsN c := by
  simp only [toUpperN, isLowerN]
  split_ifs with h1
  · simp only [Bool.and_eq_true, decide_eq_true_eq] at h1
    rw [isWsN_false_of_ge (by omega), isWsN_false_of_ge (by omega)]
  · rfl

theorem isWsN_toLowerN (c : Nat) : isWsN (toLowerN c) = isWsN c := by
  simp only [toLowerN, isUpperN]
  split_ifs with h1
  · simp only [Bool.and_eq_true, decide_eq_true_eq] at h1
    rw [isWsN_false_of_ge (by omega), isWsN_false_of_ge (by omega)]
  · rfl

theorem isAlphaN_toUpperN (c : Nat) : isAlphaN (toUpperN c) = isAlphaN c := by
  simp only [toUpperN, isLowerN, isAlphaN, isUpperN]
  split_ifs with h1 <;> simp_all <;> omega

theorem isAlphaN_toLowerN (c : Nat) : isAlphaN (toLowerN c) = isAlphaN c := by
  simp only [toLowerN, isUpperN, isAlphaN, isLowerN]
  split_ifs with h1 <;> simp_all <;> omega

theorem isWsN_not_of_alpha {c : Nat} (h : isAlphaN c = true) : isWsN c = false := by
  simp only [isAlphaN, isUpperN, isLowerN, isWsN] at *
  rcases Bool.or_eq_true_iff.mp h with h' | h' <;> simp_all <;> omega

/- ===== helper lemmas: strip ===== -/

theorem dropWhile_dropWhile (p : Nat → Bool) (l : PyStr) :
    (l.dropWhile p).dropWhile p = l.dropWhile p := by
  induction l with
  | nil => rfl
  | cons c cs ih =>
    by_cases h : p c
    · simp [List.dropWhile_cons, h, ih]
    · simp [List.dropWhile_cons, h]

theorem lstrip_lstrip (l : PyStr) : lstripPy (lstripPy l) = lstripPy l :=
  dropWhile_dropWhile isWsN l

theorem rstrip_rstrip (l : PyStr) : rstripPy (rstripPy l) = rstripPy l := by
  simp [rstripPy, dropWhile_dropWhile]

theorem lstrip_cons_of_not_ws {c : Nat} (t : PyStr) (h : isWsN c = false) :
    lstripPy (c :: t) = c :: t := by
  simp [lstripPy, List.dropWhile_cons, h]

theorem lstrip_fix_shape {l : PyStr} (h : lstripPy l = l) :
    l = [] ∨ ∃ c t, l = c :: t ∧ isWsN c = false := by
  cases l with
  | nil => exact Or.inl rfl
  | cons c t =>
    right
    refine ⟨c, t, rfl, ?_⟩
    by_contra hc
    have hc' : isWsN c = true := by simpa using hc
    have : lstripPy (c :: t) = lstripPy t := by
      simp [lstripPy, List.dropWhile_cons, hc']
    rw [this] at h
    have hle : (lstripPy t).length ≤ t.length :=
      (List.dropWhile_suffix isWsN).length_le
    rw [h] at hle
    simp at hle

theorem rstrip_is_prefix_rev (l : PyStr) : ∃ t, l = rstripPy l ++ t := by
  obtain ⟨t, ht⟩ := List.dropWhile_suffix (l := l.reverse) isWsN
  refine ⟨t.reverse, ?_⟩
  have : l.reverse.reverse = (t ++ l.reverse.dropWhile isWsN).reverse := by rw [ht]
  simpa [rstripPy] using this

theorem lstrip_of_rstrip {l : PyStr} (h : lstripPy l = l) :
    lstripPy (rstripPy l) = rstripPy l := by
  rcases lstrip_fix_shape h with h0 | ⟨c, t, rfl, hc⟩
  · subst h0; rfl
  · obtain ⟨t', ht'⟩ := rstrip_is_prefix_rev (c :: t)
    cases hr : rstripPy (c :: t) with
    | nil => rfl
    | cons d u =>
      rw [hr] at ht'
      have hd : d = c := by
        have := ht'.symm
        simp at this
        exact this.1
      subst hd
      exact lstrip_cons_of_not_ws u hc

theorem pyStrip_pyStrip (l : PyStr) : pyStrip (pyStrip l) = pyStrip l := by
  simp only [pyStrip]
  rw [lstrip_of_rstrip (lstrip_lstrip l), rstrip_rstrip]

theorem lstrip_fix_of_strip (l : PyStr) : lstripPy (pyStrip l) = pyStrip l := by
  simp only [pyStrip]
  exact lstrip_of_rstrip (lstrip_lstrip l)

theorem rstrip_fix_of_strip (l : PyStr) : rstripPy (pyStrip l) = pyStrip l := by
  simp only [pyStrip]
  rw [rstrip_rstrip]

theorem lstrip_map_comm (f : Nat → Nat) (hf : ∀ c, isWsN (f c) = isWsN c)
    (l : PyStr) : lstripPy (l.map f) = (lstripPy l).map f := by
  have hpf : (isWsN ∘ f) = isWsN := funext hf
  simp only [lstripPy]
  rw [List.dropWhile_map, hpf]

theorem rstrip_map_comm (f : Nat → Nat) (hf : ∀ c, isWsN (f c) = isWsN c)
    (l : PyStr) : rstripPy (l.map f) = (rstripPy l).map f := by
  have hpf : (isWsN ∘ f) = isWsN := funext hf
  simp only [rstripPy]
  rw [← List.map_reverse, List.dropWhile_map, hpf, List.map_reverse]

theorem pyStrip_map_comm (f : Nat → Nat) (hf : ∀ c, isWsN (f c) = isWsN c)
    (l : PyStr) : pyStrip (l.map f) = (pyStrip l).map f := by
  simp only [pyStrip]
  rw [lstrip_map_comm f hf, rstrip_map_comm f hf]

theorem lstrip_of_all_not_ws {l : PyStr} (h : ∀ c ∈ l, isWsN c = false) :
    lstripPy l = l := by
  cases l with
  | nil => rfl
  | cons c t => exact lstrip_cons_of_not_ws t (h c (by simp))

theorem rstrip_of_all_not_ws {l : PyStr} (h : ∀ c ∈ l, isWsN c = false) :
    rstripPy l = l := by
  have h2 : l.reverse.dropWhile isWsN = l.reverse :=
    lstrip_of_all_not_ws (l := l.reverse) (fun c hc => h c (List.mem_reverse.mp hc))
  simp only [rstripPy]
  rw [h2, List.reverse_reverse]

theorem pyStrip_of_all_not_ws {l : PyStr} (h : ∀ c ∈ l, isWsN c = false) :
    pyStrip l = l := by
  simp only [pyStrip]
  rw [lstrip_of_all_not_ws h, rstrip_of_all_not_ws h]

theorem countP_lstrip (p : Nat → Bool) (hp : ∀ c, isWsN c = true → p c = false)
    (l : PyStr) : (lstripPy l).countP p = l.countP p := by
  conv_rhs => rw [← List.takeWhile_append_dropWhile isWsN l]
  rw [List.countP_append]
  have : (l.takeWhile isWsN).countP p = 0 := by
    rw [List.countP_eq_zero]
    intro a ha
    simp [hp a (List.mem_takeWhile_imp ha)]
  simp [lstripPy, this]

theorem countP_rstrip (p : Nat → Bool) (hp : ∀ c, isWsN c = true → p c = false)
    (l : PyStr) : (rstripPy l).countP p = l.countP p := by
  have h1 : (l.reverse.dropWhile isWsN).countP p = l.reverse.countP p :=
    countP_lstrip p hp l.reverse
  simp only [rstripPy]
  rw [List.countP_reverse, h1, List.countP_reverse]

theorem countP_pyStrip (p : Nat → Bool) (hp : ∀ c, isWsN c = true → p c = false)
    (l : PyStr) : (pyStrip l).countP p = l.countP p := by
  simp only [pyStrip]
  rw [countP_rstrip p hp, countP_lstrip p hp]

/- ===== helper lemmas: title case ===== -/

theorem pyTitleGo_ws_mask (l : PyStr) : ∀ b, (pyTitleGo b l).map isWsN = l.map isWsN := by
  induction l with
  | nil => intro b; rfl
  | cons c cs ih =>
    intro b
    simp only [pyTitleGo, List.map_cons]
    by_cases hc : isAlphaN c = true
    · by_cases hb : b
      · simp [hc, hb, isWsN_toLowerN, ih]
      · simp [hc, hb, isWsN_toUpperN, ih]
    · simp only [Bool.not_eq_true] at hc
      simp [hc, ih]

theorem pyTitleGo_length (b : Bool) (l : PyStr) : (pyTitleGo b l).length = l.length := by
  have h := pyTitleGo_ws_mask l b
  have := congrArg List.length h
  simpa using this

theorem pyTitleGo_idem (l : PyStr) : ∀ b, pyTitleGo b (pyTitleGo b l) = pyTitleGo b l := by
  induction l with
  | nil => intro b; rfl
  | cons c cs ih =>
    intro b
    by_cases hc : isAlphaN c = true
    · cases b
      · simp [pyTitleGo, hc, isAlphaN_toUpperN, toUpperN_toUpperN, ih]
      · simp [pyTitleGo, hc, isAlphaN_toLowerN, toLowerN_toLowerN, ih]
    · simp only [Bool.not_eq_true] at hc
      simp [pyTitleGo, hc, ih]

/-- Transfer `lstrip`-fixedness along an equal whitespace mask. -/
theorem lstrip_fix_of_mask_eq {l₁ l₂ : PyStr} (hm : l₁.map isWsN = l₂.map isWsN)
    (h : lstripPy l₂ = l₂) : lstripPy l₁ = l₁ := by
  cases l₁ with
  | nil => rfl
  | cons c t =>
    cases l₂ with
    | nil => simp at hm
    | cons d u =>
      simp only [List.map_cons, List.cons.injEq] at hm
      rcases lstrip_fix_shape h with h0 | ⟨e, v, hev, he⟩
      · exact absurd h0 (by simp)
      · have hd : isWsN d = false := by
          have : d = e := by
            have := hev
            simp at this
            exact this.1 ▸ rfl
          rw [this]; exact he
        exact lstrip_cons_of_not_ws t (hm.1.trans hd)

theorem rstrip_fix_of_mask_eq {l₁ l₂ : PyStr} (hm : l₁.map isWsN = l₂.map isWsN)
    (h : rstripPy l₂ = l₂) : rstripPy l₁ = l₁ := by
  have hrev : lstripPy l₂.reverse = l₂.reverse := by
    have h' : (l₂.reverse.dropWhile isWsN).reverse = l₂ := h
    have := congrArg List.reverse h'
    simpa [lstripPy] using this
  have hm' : l₁.reverse.map isWsN = l₂.reverse.map isWsN := by
    rw [List.map_reverse, List.map_reverse, hm]
  have hfix : lstripPy l₁.reverse = l₁.reverse := lstrip_fix_of_mask_eq hm' hrev
  have hfix' : l₁.reverse.dropWhile isWsN = l₁.reverse := hfix
  simp only [rstripPy]
  rw [hfix', List.reverse_reverse]

/- ===== split lemmas and the email pattern ===== -/

theorem splitFirst_eq_some {sep : Nat} : ∀ {l a b : PyStr},
    splitFirst sep l = some (a, b) → l = a ++ sep :: b ∧ sep ∉ a := by
  intro l
  induction l with
  | nil => intro a b h; simp [splitFirst] at h
  | cons c cs ih =>
    intro a b h
    by_cases hc : c = sep
    · subst hc
      simp [splitFirst] at h
      obtain ⟨ha, hb⟩ := h
      subst ha; subst hb
      simp
    · simp [splitFirst, hc] at h
      obtain ⟨p1, hp, rest⟩ := h
      subst rest
      obtain ⟨hl, hsep⟩ := ih hp
      constructor
      · rw [hl]
        simp
      · intro hmem
        rcases List.mem_cons.mp hmem with h1 | h2
        · exact hc h1.symm
        · exact hsep h2

theorem splitFirst_map {sep : Nat} (f : Nat → Nat) (hf : ∀ c, f c = sep ↔ c = sep) :
    ∀ (l : PyStr), splitFirst sep (l.map f) =
      (splitFirst sep l).map (fun p => (p.1.map f, p.2.map f)) := by
  intro l
  induction l with
  | nil => rfl
  | cons c cs ih =>
    by_cases hc : c = sep
    · subst hc
      have hfc : f c = c := (hf c).mpr rfl
      simp [splitFirst, hfc]
    · have hfc : ¬ f c = sep := fun h => hc ((hf c).mp h)
      simp only [List.map_cons, splitFirst, hfc, if_false, hc, ih]
      cases splitFirst sep cs <;> simp

theorem splitLast_eq_some {sep : Nat} {l a b : PyStr}
    (h : splitLast sep l = some (a, b)) : l = a ++ sep :: b ∧ sep ∉ b := by
  simp only [splitLast] at h
  cases hsf : splitFirst sep l.reverse with
  | none => rw [hsf] at h; simp at h
  | some p =>
    rw [hsf] at h
    obtain ⟨x, y⟩ := p
    simp at h
    obtain ⟨ha, hb⟩ := h
    obtain ⟨hl, hsep⟩ := splitFirst_eq_some hsf
    subst ha
    subst hb
    constructor
    · have := congrArg List.reverse hl
      simpa using this
    · simpa using hsep

theorem splitLast_map {sep : Nat} (f : Nat → Nat) (hf : ∀ c, f c = sep ↔ c = sep)
    (l : PyStr) : splitLast sep (l.map f) =
      (splitLast sep l).map (fun p => (p.1.map f, p.2.map f)) := by
  simp only [splitLast]
  rw [← List.map_reverse, splitFirst_map f hf]
  cases splitFirst sep l.reverse with
  | none => rfl
  | some p => simp [List.map_reverse]

theorem toLowerN_eq_64_iff (c : Nat) : toLowerN c = 64 ↔ c = 64 := by
  simp only [toLowerN, isUpperN]
  split_ifs with h
  · simp only [Bool.and_eq_true, decide_eq_true_eq] at h
    omega
  · exact Iff.rfl

theorem toLowerN_eq_46_iff (c : Nat) : toLowerN c = 46 ↔ c = 46 := by
  simp only [toLowerN, isUpperN]
  split_ifs with h
  · simp only [Bool.and_eq_true, decide_eq_true_eq] at h
    omega
  · exact Iff.rfl

theorem emailLocalChar_toLowerN (c : Nat) : emailLocalChar (toLowerN c) = emailLocalChar c := by
  by_cases h : isUpperN c = true
  · simp only [Bool.and_eq_true, decide_eq_true_eq, isUpperN] at h
    have h1 : toLowerN c = c + 32 := by simp [toLowerN, isUpperN]; omega
    rw [h1, Bool.eq_iff_iff]
    simp only [emailLocalChar, isAlphaN, isUpperN, isLowerN, isDigitN]
    simp only [Bool.or_eq_true, Bool.and_eq_true, decide_eq_true_eq]
    constructor
    · intro _; left; left; omega
    · intro _; left; left; omega
  · have h1 : toLowerN c = c := by simp [toLowerN, h]
    rw [h1]

theorem emailDomainChar_toLowerN (c : Nat) : emailDomainChar (toLowerN c) = emailDomainChar c := by
  by_cases h : isUpperN c = true
  · simp only [Bool.and_eq_true, decide_eq_true_eq, isUpperN] at h
    have h1 : toLowerN c = c + 32 := by simp [toLowerN, isUpperN]; omega
    rw [h1, Bool.eq_iff_iff]
    simp only [emailDomainChar, isAlphaN, isUpperN, isLowerN, isDigitN]
    simp only [Bool.or_eq_true, Bool.and_eq_true, decide_eq_true_eq]
    constructor
    · intro _; left; left; omega
    · intro _; left; left; omega
  · have h1 : toLowerN c = c := by simp [toLowerN, h]
    rw [h1]

theorem emailLocalChar_not_ws {c : Nat} (h : emailLocalChar c = true) : isWsN c = false := by
  simp only [emailLocalChar, isAlphaN, isUpperN, isLowerN, isDigitN] at h
  simp only [Bool.or_eq_true, Bool.and_eq_true, decide_eq_true_eq] at h
  apply isWsN_false_of_ge
  omega

theorem emailDomainChar_not_ws {c : Nat} (h : emailDomainChar c = true) : isWsN c = false := by
  simp only [emailDomainChar, isAlphaN, isUpperN, isLowerN, isDigitN] at h
  simp only [Bool.or_eq_true, Bool.and_eq_true, decide_eq_true_eq] at h
  apply isWsN_false_of_ge
  omega

theorem emailMatch_chars {s : PyStr} (h : emailMatch s = true) :
    ∀ c ∈ s, isWsN c = false := by
  intro c hc
  simp only [emailMatch] at h
  cases hsf : splitFirst 64 s with
  | none => rw [hsf] at h; simp at h
  | some p =>
    obtain ⟨loc, dom⟩ := p
    rw [hsf] at h
    dsimp only at h
    cases hsl : splitLast 46 dom with
    | none => rw [hsl] at h; simp at h
    | some q =>
      obtain ⟨base, tld⟩ := q
      rw [hsl] at h
      dsimp only at h
      simp only [Bool.and_eq_true, List.all_eq_true] at h
      obtain ⟨⟨hne, hloc⟩, ⟨⟨hbne, hbase⟩, hlen⟩, htld⟩ := h
      obtain ⟨hs, _⟩ := splitFirst_eq_some hsf
      obtain ⟨hd, _⟩ := splitLast_eq_some hsl
      subst hs
      rcases List.mem_append.mp hc with h1 | h2
      · exact emailLocalChar_not_ws (hloc c h1)
      · rcases List.mem_cons.mp h2 with h3 | h4
        · subst h3; decide
        · rw [hd] at h4
          rcases List.mem_append.mp h4 with h5 | h6
          · exact emailDomainChar_not_ws (hbase c h5)
          · rcases List.mem_cons.mp h6 with h7 | h8
            · subst h7; decide
            · exact isWsN_not_of_alpha (htld c h8)

theorem emailMatch_ne_nil {s : PyStr} (h : emailMatch s = true) : s ≠ [] := by
  intro hnil
  subst hnil
  simp [emailMatch, splitFirst] at h

theorem emailMatch_lower {s : PyStr} (h : emailMatch s = true) :
    emailMatch (pyLower s) = true := by
  simp only [emailMatch, pyLower] at *
  rw [splitFirst_map toLowerN toLowerN_eq_64_iff]
  cases hsf : splitFirst 64 s with
  | none => rw [hsf] at h; simp at h
  | some p =>
    obtain ⟨loc, dom⟩ := p
    rw [hsf] at h
    dsimp only at h
    dsimp only [Option.map]
    rw [splitLast_map toLowerN toLowerN_eq_46_iff]
    cases hsl : splitLast 46 dom with
    | none => rw [hsl] at h; simp at h
    | some q =>
      obtain ⟨base, tld⟩ := q
      rw [hsl] at h
      dsimp only at h
      simp only [Bool.and_eq_true, List.all_eq_true] at h
      obtain ⟨⟨hne, hloc⟩, ⟨⟨hbne, hbase⟩, hlen⟩, htld⟩ := h
      dsimp only [Option.map]
      simp only [Bool.and_eq_true, List.all_eq_true]
      refine ⟨⟨?_, ?_⟩, ⟨⟨?_, ?_⟩, ?_⟩, ?_⟩
      · simpa using (by simpa using hne : loc ≠ [])
      · intro c hcm
        obtain ⟨c0, hc0, hc0e⟩ := List.mem_map.mp hcm
        rw [← hc0e, emailLocalChar_toLowerN]
        exact hloc c0 hc0
      · simpa using (by simpa using hbne : base ≠ [])
      · intro c hcm
        obtain ⟨c0, hc0, hc0e⟩ := List.mem_map.mp hcm
        rw [← hc0e, emailDomainChar_toLowerN]
        exact hbase c0 hc0
      · simpa using hlen
      · intro c hcm
        obtain ⟨c0, hc0, hc0e⟩ := List.mem_map.mp hcm
        rw [← hc0e, isAlphaN_toLowerN]
        exact htld c0 hc0

/- ===== validator idempotence (re-validating a stored value) ===== -/

theorem validateStudentId_ok {raw out : PyStr}
    (h : validateStudentId raw = .ok out) :
    raw ≠ [] ∧ ¬ raw.length < 3 ∧ out = pyUpper (pyStrip raw) := by
  unfold validateStudentId at h
  split_ifs at h with h1 h2
  exact ⟨h1, h2, (Except.ok.inj h).symm⟩

theorem validateStudentId_idem {raw out : PyStr}
    (h : validateStudentId raw = .ok out) (hlen : 3 ≤ (pyStrip raw).length) :
    validateStudentId out = .ok out := by
  obtain ⟨h1, h2, h3⟩ := validateStudentId_ok h
  have hlen2 : out.length = (pyStrip raw).length := by
    rw [h3]; simp [pyUpper]
  have hout_ne : out ≠ [] := by
    intro hn
    rw [hn] at hlen2
    simp at hlen2
    omega
  have hstrip : pyStrip out = out := by
    rw [h3]
    show pyStrip ((pyStrip raw).map toUpperN) = (pyStrip raw).map toUpperN
    rw [pyStrip_map_comm toUpperN isWsN_toUpperN, pyStrip_pyStrip]
  have hupper : pyUpper out = out := by
    rw [h3]
    show ((pyStrip raw).map toUpperN).map toUpperN = (pyStrip raw).map toUpperN
    rw [List.map_map]
    congr 1
    funext c
    exact toUpperN_toUpperN c
  unfold validateStudentId
  rw [if_neg hout_ne, if_neg (by omega), hstrip, hupper]

theorem validateName_ok {raw out : PyStr} {f : String}
    (h : validateName raw f = .ok out) :
    raw ≠ [] ∧ pyStrip raw ≠ [] ∧ out = pyTitle (pyStrip raw) := by
  unfold validateName at h
  split_ifs at h with h1 h2
  exact ⟨h1, h2, (Except.ok.inj h).symm⟩

theorem validateName_idem {raw out : PyStr} {f f2 : String}
    (h : validateName raw f = .ok out) :
    validateName out f2 = .ok out := by
  obtain ⟨h1, h2, h3⟩ := validateName_ok h
  have hmask : out.map isWsN = (pyStrip raw).map isWsN := by
    rw [h3]; exact pyTitleGo_ws_mask (pyStrip raw) false
  have hlen2 : out.length = (pyStrip raw).length := by
    rw [h3]; exact pyTitleGo_length false (pyStrip raw)
  have hout_ne : out ≠ [] := by
    intro hn
    rw [hn] at hlen2
    exact h2 (List.eq_nil_of_length_eq_zero hlen2.symm)
  have hstrip : pyStrip out = out := by
    have hl : lstripPy out = out :=
      lstrip_fix_of_mask_eq hmask (lstrip_fix_of_strip raw)
    have hr : rstripPy out = out :=
      rstrip_fix_of_mask_eq hmask (rstrip_fix_of_strip raw)
    show rstripPy (lstripPy out) = out
    rw [hl, hr]
  have htitle : pyTitle out = out := by
    rw [h3]
    exact pyTitleGo_idem (pyStrip raw) false
  unfold validateName
  rw [if_neg hout_ne, if_neg (by rw [hstrip]; exact hout_ne), hstrip, htitle]

theorem validateEmail_ok {raw out : PyStr}
    (h : validateEmail raw = .ok out) :
    raw ≠ [] ∧ emailMatch raw = true ∧ out = pyLower (pyStrip raw) := by
  unfold validateEmail at h
  split_ifs at h with h1 h2
  exact ⟨h1, h2, (Except.ok.inj h).symm⟩

theorem validateEmail_idem {raw out : PyStr}
    (h : validateEmail raw = .ok out) :
    validateEmail out = .ok out := by
  obtain ⟨h1, h2, h3⟩ := validateEmail_ok h
  have hraw_strip : pyStrip raw = raw :=
    pyStrip_of_all_not_ws (emailMatch_chars h2)
  have h3' : out = pyLower raw := by rw [h3, hraw_strip]
  have hmatch : emailMatch out = true := by
    rw [h3']; exact emailMatch_lower h2
  have hout_ne : out ≠ [] := by
    rw [h3', pyLower]
    simp only [ne_eq, List.map_eq_nil_iff]
    exact h1
  have hout_no_ws : ∀ c ∈ out, isWsN c = false := by
    intro c hc
    rw [h3', pyLower] at hc
    obtain ⟨c0, hc0, hc0e⟩ := List.mem_map.mp hc
    rw [← hc0e, isWsN_toLowerN]
    exact emailMatch_chars h2 c0 hc0
  have hstrip : pyStrip out = out := pyStrip_of_all_not_ws hout_no_ws
  have hlower : pyLower out = out := by
    rw [h3', pyLower, pyLower, List.map_map]
    congr 1
    funext c
    exact toLowerN_toLowerN c
  unfold validateEmail
  rw [if_neg hout_ne, if_pos hmatch, hstrip, hlower]

theorem validatePhone_ok {raw out : PyStr}
    (h : validatePhone raw = .ok out) :
    raw ≠ [] ∧ ¬ raw.countP isDigitN < 10 ∧ out = pyStrip raw := by
  unfold validatePhone at h
  split_ifs at h with h1 h2
  exact ⟨h1, h2, (Except.ok.inj h).symm⟩

theorem ws_not_digit : ∀ c : Nat, isWsN c = true → isDigitN c = false := by
  intro c h
  simp only [isWsN, Bool.or_eq_true, decide_eq_true_eq] at h
  simp only [isDigitN, Bool.and_eq_true, decide_eq_true_eq, Bool.and_eq_false_iff,
    decide_eq_false_iff_not]
  omega

theorem validatePhone_idem {raw out : PyStr}
    (h : validatePhone raw = .ok out) :
    validatePhone out = .ok out := by
  obtain ⟨h1, h2, h3⟩ := validatePhone_ok h
  have hcount : out.countP isDigitN = raw.countP isDigitN := by
    rw [h3]; exact countP_pyStrip isDigitN ws_not_digit raw
  have hout_ne : out ≠ [] := by
    intro hn
    rw [hn] at hcount
    simp at hcount
    omega
  have hstrip : pyStrip out = out := by
    rw [h3]; exact pyStrip_pyStrip raw
  unfold validatePhone
  rw [if_neg hout_ne, if_neg (by rw [hcount]; exact h2), hstrip]

theorem validateDate_ok {raw out : PyStr}
    (h : validateDate raw = .ok out) :
    raw ≠ [] ∧ (parseDate raw).isSome ∧ out = raw := by
  unfold validateDate at h
  split_ifs at h with h1
  cases hp : parseDate raw with
  | none =>
    rw [hp] at h
    dsimp only at h
    exact Except.noConfusion h
  | some d =>
    rw [hp] at h
    dsimp only at h
    exact ⟨h1, rfl, (Except.ok.inj h).symm⟩

theorem validateDate_idem {raw out : PyStr}
    (h : validateDate raw = .ok out) :
    validateDate out = .ok out := by
  obtain ⟨h1, h2, h3⟩ := validateDate_ok h
  subst h3
  exact h

theorem validateGpa_ok {g out : ℚ} (h : validateGpa g = .ok out) :
    ¬ (g < 0 ∨ 4 < g) ∧ out = g := by
  unfold validateGpa at h
  split_ifs at h with h1
  exact ⟨h1, (Except.ok.inj h).symm⟩

theorem validateGpa_idem {g out : ℚ} (h : validateGpa g = .ok out) :
    validateGpa out = .ok out := by
  obtain ⟨h1, h2⟩ := validateGpa_ok h
  subst h2
  exact h

/- ===== construct / from_dict shapes ===== -/

theorem construct_ok {today : PyDate} {sid fn ln em ph dob ad mj : PyStr} {g : ℚ}
    {s : Student}
    (h : construct today sid fn ln em ph dob ad mj g = .ok s) :
    validateStudentId sid = .ok s.student_id ∧
    validateName fn ("First name") = .ok s.first_name ∧
    validateName ln ("Last name") = .ok s.last_name ∧
    validateEmail em = .ok s.email ∧
    validatePhone ph = .ok s.phone ∧
    validateDate dob = .ok s.date_of_birth ∧
    validateGpa g = .ok s.gpa ∧
    s.address = ad ∧ s.major = mj ∧ s.enrollment_date = formatDate today ∧
    s.courses = [] ∧ s.grades = [] := by
  unfold construct at h
  cases h1 : validateStudentId sid with
  | error e => rw [h1] at h; exact Except.noConfusion h
  | ok v1 =>
  rw [h1] at h
  cases h2 : validateName fn ("First name") with
  | error e => rw [h2] at h; exact Except.noConfusion h
  | ok v2 =>
  rw [h2] at h
  cases h3 : validateName ln ("Last name") with
  | error e => rw [h3] at h; exact Except.noConfusion h
  | ok v3 =>
  rw [h3] at h
  cases h4 : validateEmail em with
  | error e => rw [h4] at h; exact Except.noConfusion h
  | ok v4 =>
  rw [h4] at h
  cases h5 : validatePhone ph with
  | error e => rw [h5] at h; exact Except.noConfusion h
  | ok v5 =>
  rw [h5] at h
  cases h6 : validateDate dob with
  | error e => rw [h6] at h; exact Except.noConfusion h
  | ok v6 =>
  rw [h6] at h
  cases h7 : validateGpa g with
  | error e => rw [h7] at h; exact Except.noConfusion h
  | ok v7 =>
  rw [h7] at h
  dsimp only [bind, Except.bind] at h
  have hs := (Except.ok.inj h)
  subst hs
  exact ⟨rfl, rfl, rfl, rfl, rfl, rfl, rfl, rfl, rfl, rfl, rfl, rfl⟩

theorem construct_wellformed {today : PyDate} {sid fn ln em ph dob ad mj : PyStr}
    {g : ℚ} {s : Student}
    (h : construct today sid fn ln em ph dob ad mj g = .ok s)
    (hlen : 3 ≤ (pyStrip sid).length) : Wellformed s := by
  obtain ⟨h1, h2, h3, h4, h5, h6, h7, _, _, _, _, _⟩ := construct_ok h
  exact ⟨validateStudentId_idem h1 hlen, validateName_idem h2, validateName_idem h3,
         validateEmail_idem h4, validatePhone_idem h5, validateDate_idem h6,
         validateGpa_idem h7⟩

/-- `from_dict (to_dict s)` restores `s` exactly for a well-formed entity. -/
theorem fromDict_toDict {s : Student} (hw : Wellformed s) :
    fromDict (toDict s) = .ok s := by
  obtain ⟨h1, h2, h3, h4, h5, h6, h7⟩ := hw
  unfold fromDict toDict
  dsimp only
  rw [h1, h2, h3, h4, h5, h6, h7]
  dsimp only [bind, Except.bind]

/-- Claim C7 (amended): for every field set the validated constructor accepts
    whose id, after stripping surrounding whitespace, still has at least 3
    characters, serializing with to_dict and deserializing with from_dict
    restores an entity equal to the original in every attribute. -/
theorem c7_roundtrip (today : PyDate) (sid fn ln em ph dob ad mj : PyStr)
    (g : ℚ) (s : Student)
    (h : construct today sid fn ln em ph dob ad mj g = .ok s)
    (hlen : 3 ≤ (pyStrip sid).length) :
    fromDict (toDict s) = .ok s :=
  fromDict_toDict (construct_wellformed h hlen)

theorem c7_witness : fromDict (toDict c7s) = .ok c7s :=
  c7_roundtrip dToday (str "stu001") (str "  alice") (str "JOHNSON")
    (str "Alice@Uni.edu") (str " 5551234567 ") (str "2001-03-15")
    (str " 12 Elm ") (str "cs") 2 c7s (by decide) (by decide)

theorem c7_counterexample :
    (construct dToday (str "AB ") (str "Al") (str "Jo") (str "al@uni.edu")
      (str "5551234567") (str "2001-03-15") [] [] 0).map
      (fun s => (s.student_id, exceptIsError (fromDict (toDict s))))
      = .ok (str "AB", true) := by decide

/-- Claim C3: adding a valid entity with a fresh id succeeds and a get with
    the id in any letter case returns an equal entity; adding with a
    pre-existing id fails and leaves the stored collection unchanged. -/
theorem c3_add_get :
    (∀ (db : DBState) (e : Student) (q : PyStr), Wellformed e →
      (∀ r ∈ db, r.student_id ≠ e.student_id) → pyUpper q = e.student_id →
      addStudent db e = (true, db ++ [toDict e]) ∧
      getStudent (db ++ [toDict e]) q = .ok (some e)) ∧
    (∀ (db : DBState) (e : Student), (∃ r ∈ db, r.student_id = e.student_id) →
      addStudent db e = (false, db)) := by
  constructor
  · intro db e q hw hfresh hq
    have hany : db.any (fun r => r.student_id = e.student_id) = false := by
      rw [List.any_eq_false]
      intro r hr
      simpa using hfresh r hr
    constructor
    · unfold addStudent
      rw [hany]
      rfl
    · unfold getStudent
      have hnone : db.find? (fun r => r.student_id = pyUpper q) = none := by
        rw [List.find?_eq_none]
        intro r hr
        rw [hq]
        simpa using hfresh r hr
      have hfind : (db ++ [toDict e]).find? (fun r => r.student_id = pyUpper q)
          = some (toDict e) := by
        rw [List.find?_append, hnone, Option.none_or]
        have : (toDict e).student_id = pyUpper q := by
          show e.student_id = pyUpper q
          rw [hq]
        simp [List.find?, this]
      rw [hfind]
      dsimp only
      rw [fromDict_toDict hw]
      rfl
  · intro db e ⟨r, hr, hid⟩
    have hany : db.any (fun r => r.student_id = e.student_id) = true := by
      rw [List.any_eq_true]
      exact ⟨r, hr, by simpa using hid⟩
    unfold addStudent
    rw [hany]
    rfl

theorem c3_witness :
    (addStudent [] stu3 = (true, [] ++ [toDict stu3]) ∧
      getStudent ([] ++ [toDict stu3]) (str "stu301") = .ok (some stu3)) ∧
    addStudent [toDict stu3] stu3 = (false, [toDict stu3]) :=
  ⟨c3_add_get.1 [] stu3 (str "stu301") (by decide) (by simp) (by decide),
   c3_add_get.2 [toDict stu3] stu3 ⟨toDict stu3, by simp, rfl⟩⟩

theorem alSet_ne_nil {β : Type} (l : List (PyStr × β)) (k : PyStr) (v : β) :
    alSet l k v ≠ [] := by
  cases l with
  | nil => simp [alSet]
  | cons p rest =>
    obtain ⟨k', v'⟩ := p
    unfold alSet
    split_ifs <;> simp

/-- Claim C1 (amended): after every successful addGrade the gpa is the
    arithmetic mean of the stored grades (which are then non-empty). -/
theorem c1_gpa_mean_after_addGrade (s : Student) (c : PyStr) (g : ℚ)
    (s' : Student) (h : addGrade s c g = .ok s') :
    s'.grades ≠ [] ∧ s'.gpa = alSum s'.grades / (s'.grades.length : ℚ) := by
  unfold addGrade at h
  split_ifs at h with h1 h2
  have hs := (Except.ok.inj h).symm
  subst hs
  have hg : ({ s with grades := alSet s.grades c g } : Student).grades ≠ [] :=
    alSet_ne_nil s.grades c g
  unfold updateGpa
  rw [if_neg hg]
  exact ⟨hg, rfl⟩

theorem addGrade_stuBase : addGrade stuBase (str "Math") 3 = .ok stuGraded := by
  unfold addGrade
  rw [if_neg (by decide), if_neg (by norm_num)]
  unfold updateGpa
  rw [if_neg (by decide)]
  show Except.ok _ = _
  have : alSum (alSet stuBase.grades (str "Math") 3) /
      (((alSet stuBase.grades (str "Math") 3).length : ℚ)) = 3 := by
    norm_num [stuBase, alSet, alSum]
  simp only [stuGraded, this]
  decide

theorem c1_witness :
    stuGraded.grades ≠ [] ∧
    stuGraded.gpa = alSum stuGraded.grades / (stuGraded.grades.length : ℚ) :=
  c1_gpa_mean_after_addGrade stuBase (str "Math") 3 stuGraded addGrade_stuBase

theorem c1Chain_eval :
    c1Chain = .ok { stuBase with courses := [], grades := [], gpa := 4 } := by
  have h0 : construct dToday (str "STU001") (str "Alice") (str "Johnson")
      (str "alice@uni.edu") (str "5551234567") (str "2001-03-15") [] [] 0
      = .ok { stuBase with courses := [] } := by decide
  have h1 : addCourse { stuBase with courses := [] } (str "Math")
      = .ok (true, stuBase) := by decide
  have h2 : addGrade stuBase (str "Math") 4
      = .ok { stuBase with grades := [(str "Math", 4)], gpa := 4 } := by
    unfold addGrade
    rw [if_neg (by decide), if_neg (by norm_num)]
    unfold updateGpa
    rw [if_neg (by decide)]
    show Except.ok _ = _
    have : alSum (alSet stuBase.grades (str "Math") 4) /
        (((alSet stuBase.grades (str "Math") 4).length : ℚ)) = 4 := by
      norm_num [stuBase, alSet, alSum]
    simp only [this]
    decide
  have h3 : removeCourse { stuBase with grades := [(str "Math", 4)], gpa := 4 }
      (str "Math")
      = (true, { stuBase with courses := [], grades := [], gpa := 4 }) := by decide
  unfold c1Chain
  rw [h0]
  dsimp only [bind, Except.bind]
  rw [h1]
  dsimp only [bind, Except.bind]
  rw [h2]
  dsimp only [bind, Except.bind]
  rw [h3]
  rfl

theorem c1_counterexample :
    (c1Chain.map (fun s => (s.grades, s.gpa)) = .ok ([], 4) ∧ (4 : ℚ) ≠ 0) ∧
    ((construct dToday (str "STU002") (str "Bob") (str "Smith")
        (str "bob@uni.edu") (str "5551234568") (str "2001-03-15") [] [] 3).map
        (fun s => (s.grades, s.gpa)) = .ok ([], 3) ∧ (3 : ℚ) ≠ 0) := by
  refine ⟨⟨?_, by norm_num⟩, ⟨?_, by norm_num⟩⟩
  · rw [c1Chain_eval]
    rfl
  · decide

/-- Claim C4: addGrade fails exactly when the course is not enrolled or the
    value is out of [0, 4], leaving the entity unchanged, and otherwise stores
    the grade and recomputes the gpa as the mean of the current grades. -/
theorem c4_addGrade_spec :
    (∀ (s : Student) (c : PyStr) (g : ℚ),
      exceptIsError (addGrade s c g) = true ↔ (c ∉ s.courses ∨ g < 0 ∨ 4 < g)) ∧
    (∀ (s : Student) (c : PyStr) (g : ℚ), c ∈ s.courses → 0 ≤ g → g ≤ 4 →
      addGrade s c g =
        .ok { s with
              grades := alSet s.grades c g,
              gpa := alSum (alSet s.grades c g) /
                ((alSet s.grades c g).length : ℚ) }) := by
  constructor
  · intro s c g
    unfold addGrade
    by_cases h1 : c ∈ s.courses
    · rw [if_neg (by simpa using h1)]
      by_cases h2 : g < 0 ∨ 4 < g
      · rw [if_pos h2]
        simp [exceptIsError, h1]
        exact h2
      · rw [if_neg h2]
        simp [exceptIsError, h1, h2]
    · rw [if_pos (by simpa using h1)]
      simp [exceptIsError, h1]
  · intro s c g hc h0 h4
    unfold addGrade
    rw [if_neg (by simpa using hc), if_neg (by push_neg; exact ⟨h0, h4⟩)]
    unfold updateGpa
    rw [if_neg (alSet_ne_nil s.grades c g)]

theorem c4_witness :
    addGrade stuBase (str "Math") 3 =
      .ok { stuBase with
            grades := alSet stuBase.grades (str "Math") 3,
            gpa := alSum (alSet stuBase.grades (str "Math") 3) /
              ((alSet stuBase.grades (str "Math") 3).length : ℚ) } :=
  c4_addGrade_spec.2 stuBase (str "Math") 3 (by decide) (by norm_num) (by norm_num)

/- ===== C2: grades-keys-subset-of-courses invariant ===== -/

theorem mem_pyErase_of_ne {x y : PyStr} : ∀ {l : List PyStr},
    x ∈ l → x ≠ y → x ∈ pyErase l y := by
  intro l
  induction l with
  | nil => intro h; simp at h
  | cons c cs ih =>
    intro hm hne
    unfold pyErase
    rcases List.mem_cons.mp hm with h1 | h2
    · subst h1
      rw [if_neg (by simpa using hne)]
      simp
    · by_cases hcy : c = y
      · rw [if_pos hcy]
        exact h2
      · rw [if_neg hcy]
        exact List.mem_cons.mpr (Or.inr (ih h2 hne))

theorem mem_alSet {β : Type} {p : PyStr × β} {k : PyStr} {v : β} :
    ∀ {l : List (PyStr × β)}, p ∈ alSet l k v → p.1 = k ∨ p ∈ l := by
  intro l
  induction l with
  | nil =>
    intro h
    unfold alSet at h
    rcases List.mem_cons.mp h with h1 | h2
    · subst h1; exact Or.inl rfl
    · simp at h2
  | cons q rest ih =>
    intro h
    obtain ⟨k', v'⟩ := q
    unfold alSet at h
    by_cases hk : k' = k
    · rw [if_pos hk] at h
      rcases List.mem_cons.mp h with h1 | h2
      · subst h1; exact Or.inl rfl
      · exact Or.inr (List.mem_cons.mpr (Or.inr h2))
    · rw [if_neg hk] at h
      rcases List.mem_cons.mp h with h1 | h2
      · subst h1; exact Or.inr (List.mem_cons.mpr (Or.inl rfl))
      · rcases ih h2 with h3 | h4
        · exact Or.inl h3
        · exact Or.inr (List.mem_cons.mpr (Or.inr h4))

/-- `update_info` never touches id, date of birth, gpa, enrollment date,
    courses or grades. -/
theorem updateInfo_frame : ∀ (u : List (PyStr × PyStr)) (s s' : Student),
    updateInfo s u = .ok s' →
    s'.student_id = s.student_id ∧ s'.date_of_birth = s.date_of_birth ∧
    s'.gpa = s.gpa ∧ s'.enrollment_date = s.enrollment_date ∧
    s'.courses = s.courses ∧ s'.grades = s.grades := by
  intro u
  induction u with
  | nil =>
    intro s s' h
    unfold updateInfo at h
    have := Except.ok.inj h
    subst this
    exact ⟨rfl, rfl, rfl, rfl, rfl, rfl⟩
  | cons p rest ih =>
    intro s s' h
    obtain ⟨k, v⟩ := p
    unfold updateInfo at h
    split_ifs at h with h1 h2 h3 h4 h5 h6
    · cases hv : validateName v ("First Name") with
      | error e => rw [hv] at h; exact Except.noConfusion h
      | ok n =>
        rw [hv] at h
        dsimp only at h
        have h9 := ih _ s' h
        exact h9
    · cases hv : validateName v ("Last Name") with
      | error e => rw [hv] at h; exact Except.noConfusion h
      | ok n =>
        rw [hv] at h
        dsimp only at h
        have h9 := ih _ s' h
        exact h9
    · cases hv : validateEmail v with
      | error e => rw [hv] at h; exact Except.noConfusion h
      | ok n =>
        rw [hv] at h
        dsimp only at h
        have h9 := ih _ s' h
        exact h9
    · cases hv : validatePhone v with
      | error e => rw [hv] at h; exact Except.noConfusion h
      | ok n =>
        rw [hv] at h
        dsimp only at h
        have h9 := ih _ s' h
        exact h9
    · have h9 := ih _ s' h
      exact h9
    · have h9 := ih _ s' h
      exact h9
    · exact ih _ _ h

theorem updateGpa_grades (s : Student) : (updateGpa s).grades = s.grades := by
  unfold updateGpa
  split_ifs <;> rfl

theorem updateGpa_courses (s : Student) : (updateGpa s).courses = s.courses := by
  unfold updateGpa
  split_ifs <;> rfl

/-- Claim C2 (amended): construction and the four mutators preserve the
    grades-keys-subset-of-courses invariant (from_dict does not re-establish
    it; see the counterexample). -/
theorem c2_grades_subset :
    (∀ (today : PyDate) (sid fn ln em ph dob ad mj : PyStr) (g : ℚ) (s : Student),
      construct today sid fn ln em ph dob ad mj g = .ok s → GradesInv s) ∧
    (∀ (s : Student) (c : PyStr) (b : Bool) (s' : Student), GradesInv s →
      addCourse s c = .ok (b, s') → GradesInv s') ∧
    (∀ (s : Student) (c : PyStr), GradesInv s → GradesInv (removeCourse s c).2) ∧
    (∀ (s : Student) (c : PyStr) (g : ℚ) (s' : Student), GradesInv s →
      addGrade s c g = .ok s' → GradesInv s') ∧
    (∀ (s : Student) (u : List (PyStr × PyStr)) (s' : Student), GradesInv s →
      updateInfo s u = .ok s' → GradesInv s') := by
  refine ⟨?_, ?_, ?_, ?_, ?_⟩
  · intro today sid fn ln em ph dob ad mj g s h
    obtain ⟨-, -, -, -, -, -, -, -, -, -, -, hg⟩ := construct_ok h
    intro p hp
    rw [hg] at hp
    simp at hp
  · intro s c b s' hinv h
    unfold addCourse at h
    split_ifs at h with h1
    dsimp only at h
    split_ifs at h with h2
    · have := Except.ok.inj h
      have hs : s' = s := (congrArg Prod.snd this).symm
      subst hs
      exact hinv
    · have := Except.ok.inj h
      have hs : s' = { s with courses := s.courses ++ [pyStrip c] } :=
        (congrArg Prod.snd this).symm
      subst hs
      intro p hp
      exact List.mem_append.mpr (Or.inl (hinv p hp))
  · intro s c hinv
    unfold removeCourse
    split_ifs with h1
    · intro p hp
      dsimp only at hp
      have hpm : p ∈ s.grades ∧ ¬ p.1 = c := by
        have := List.mem_filter.mp hp
        simpa using this
      exact mem_pyErase_of_ne (hinv p hpm.1) hpm.2
    · exact hinv
  · intro s c g s' hinv h
    unfold addGrade at h
    split_ifs at h with h1 h2
    have hs := (Except.ok.inj h).symm
    subst hs
    intro p hp
    rw [updateGpa_grades] at hp
    rw [updateGpa_courses]
    dsimp only at hp ⊢
    rcases mem_alSet hp with hk | hm
    · rw [hk]; simpa using h1
    · exact hinv p hm
  · intro s u s' hinv h
    obtain ⟨-, -, -, -, hc, hg⟩ := updateInfo_frame u s s' h
    intro p hp
    rw [hc]
    exact hinv p (by rw [← hg]; exact hp)

theorem c2_witness :
    GradesInv stuGraded :=
  c2_grades_subset.2.2.2.1 stuBase (str "Math") 3 stuGraded (by decide)
    addGrade_stuBase



theorem c2_counterexample :
    fromDict c2Data = .ok c2Student ∧ ¬ GradesInv c2Student := by
  constructor
  · decide
  · intro h
    have h5 := h (str "Math", 3) (by decide)
    have h6 : c2Student.courses = [] := rfl
    rw [h6] at h5
    simp at h5

/- ===== C10: add_course strips, remove_course compares raw ===== -/

/-- Claim C10 (amended): when neither the stripped form nor the raw string is
    already a stored course name, add_course appends the stripped form and
    returns true, and an immediately following remove_course with the same raw
    whitespace-carrying string returns false, changing nothing. -/
theorem c10_add_strip_remove_raw (s : Student) (n : PyStr)
    (hws : pyStrip n ≠ n) (hstr : pyStrip n ∉ s.courses) (hraw : n ∉ s.courses) :
    addCourse s n = .ok (true, { s with courses := s.courses ++ [pyStrip n] }) ∧
    removeCourse { s with courses := s.courses ++ [pyStrip n] } n =
      (false, { s with courses := s.courses ++ [pyStrip n] }) := by
  have hne : n ≠ [] := by
    intro h0
    subst h0
    exact hws rfl
  constructor
  · unfold addCourse
    rw [if_neg hne]
    dsimp only
    rw [if_neg hstr]
  · unfold removeCourse
    rw [if_neg ?_]
    intro hmem
    dsimp only at hmem
    rcases List.mem_append.mp hmem with h1 | h2
    · exact hraw h1
    · rcases List.mem_cons.mp h2 with h3 | h4
      · exact hws h3.symm
      · simp at h4

theorem c10_witness :
    addCourse stuBase (str "  Bio  ") =
      .ok (true, { stuBase with courses := stuBase.courses ++ [pyStrip (str "  Bio  ")] }) ∧
    removeCourse { stuBase with courses := stuBase.courses ++ [pyStrip (str "  Bio  ")] }
      (str "  Bio  ") =
      (false, { stuBase with courses := stuBase.courses ++ [pyStrip (str "  Bio  ")] }) :=
  c10_add_strip_remove_raw stuBase (str "  Bio  ") (by decide) (by decide) (by decide)

theorem c10_counterexample :
    (do
      let s ← fromDict c10Data
      let p ← addCourse s (str "  Math  ")
      pure (pyStrip (str "  Math  ") ∈ c10Data.courses,
            p.1, p.2.courses, (removeCourse p.2 (str "  Math  ")).1))
    = Except.ok (false, true, [str "  Math  ", str "Math"], true) := by decide

/- ===== C9: backup-then-write persistence model ===== -/

/-- Claim C9: every write backs up the current file contents verbatim first,
    a failed backup is non-fatal, and a failed write is reported as `false`;
    but the write is not all-or-nothing: the file is truncated in place, so a
    failure during the write leaves a prefix of the new text (here: an empty
    file) instead of the prior contents. -/
theorem c9_save_backup_not_atomic :
    (∀ (text : PyStr) (fs : FileSys) (oc : WriteOutcome),
      ((saveDataFS text fs true oc).1).backups = fs.backups ++ [fs.main]) ∧
    (∀ (text : PyStr) (fs : FileSys) (oc : WriteOutcome),
      ((saveDataFS text fs false oc).1).main = ((saveDataFS text fs true oc).1).main ∧
      (saveDataFS text fs false oc).2 = (saveDataFS text fs true oc).2) ∧
    (∀ (text : PyStr) (fs : FileSys) (bok : Bool) (n : Nat),
      (saveDataFS text fs bok (.failedAfter n)).2 = false) ∧
    (saveDataFS (str "[]") ⟨str "OLDDATA", []⟩ true (.failedAfter 0)
        = (⟨[], [str "OLDDATA"]⟩, false) ∧
      ([] : PyStr) ≠ str "OLDDATA") := by
  refine ⟨?_, ?_, ?_, by decide, by decide⟩
  · intro text fs oc
    cases oc <;> rfl
  · intro text fs oc
    cases oc <;> exact ⟨rfl, rfl⟩
  · intro text fs bok n
    cases bok <;> rfl

/- ===== C8: update_info and the manager update use-case ===== -/

theorem updateInfo_filter : ∀ (u : List (PyStr × PyStr)) (s : Student),
    updateInfo s u =
      updateInfo s (u.filter (fun p => decide (p.1 ∈ updatableKeys))) := by
  intro u
  induction u with
  | nil => intro s; rfl
  | cons p rest ih =>
    intro s
    obtain ⟨k, v⟩ := p
    by_cases hk : k ∈ updatableKeys
    · rw [List.filter_cons, if_pos (by simpa using hk)]
      show updateInfo s ((k, v) :: rest) = updateInfo s ((k, v) :: _)
      unfold updateInfo
      split_ifs with h1 h2 h3 h4 h5 h6
      · cases hv : validateName v ("First Name") with
        | error e => rfl
        | ok n =>
          dsimp only
          exact ih _
      · cases hv : validateName v ("Last Name") with
        | error e => rfl
        | ok n =>
          dsimp only
          exact ih _
      · cases hv : validateEmail v with
        | error e => rfl
        | ok n =>
          dsimp only
          exact ih _
      · cases hv : validatePhone v with
        | error e => rfl
        | ok n =>
          dsimp only
          exact ih _
      · exact ih _
      · exact ih _
      · exact absurd hk (by simp [updatableKeys, h1, h2, h3, h4, h5, h6])
    · rw [List.filter_cons, if_neg (by simpa using hk)]
      simp only [updatableKeys, List.mem_cons, List.mem_singleton] at hk
      push_neg at hk
      obtain ⟨n1, n2, n3, n4, n5, n6⟩ := hk
      have hstep : updateInfo s ((k, v) :: rest) = updateInfo s rest := by
        unfold updateInfo
        rw [if_neg n1, if_neg n2, if_neg n3, if_neg n4, if_neg n5,
          if_neg (by simpa using n6)]
        rw [updateInfo.eq_def]
      rw [hstep]
      exact ih s

theorem updateStudentAux_ids (d : StudentData) : ∀ db : DBState,
    ((updateStudentAux d db).2).map (fun r => r.student_id) =
      db.map (fun r => r.student_id) := by
  intro db
  induction db with
  | nil => rfl
  | cons r rest ih =>
    unfold updateStudentAux
    by_cases h : r.student_id = d.student_id
    · rw [if_pos h]
      dsimp only [List.map_cons]
      rw [← h]
    · rw [if_neg h]
      dsimp only [List.map_cons]
      rw [ih]

/-- Claim C8: update_info overwrites exactly the six recognized fields
    (re-validating names, email and phone; stripping the free-text address and
    major), ignores unrecognized keys, leaves every other attribute unchanged,
    and the manager's update use-case never changes any stored id. -/
theorem c8_update_frame :
    (∀ (s : Student) (u : List (PyStr × PyStr)) (s' : Student),
      updateInfo s u = .ok s' →
      s'.student_id = s.student_id ∧ s'.date_of_birth = s.date_of_birth ∧
      s'.gpa = s.gpa ∧ s'.enrollment_date = s.enrollment_date ∧
      s'.courses = s.courses ∧ s'.grades = s.grades) ∧
    (∀ (s : Student) (u : List (PyStr × PyStr)),
      updateInfo s u =
        updateInfo s (u.filter (fun p => decide (p.1 ∈ updatableKeys)))) ∧
    (∀ (s : Student) (v : PyStr),
      updateInfo s [(str "address", v)] = .ok { s with address := pyStrip v } ∧
      updateInfo s [(str "major", v)] = .ok { s with major := pyStrip v }) ∧
    (∀ (s : Student) (v n : PyStr), validateName v ("First Name") = .ok n →
      updateInfo s [(str "first_name", v)] = .ok { s with first_name := n }) ∧
    (∀ (s : Student) (v n : PyStr), validateEmail v = .ok n →
      updateInfo s [(str "email", v)] = .ok { s with email := n }) ∧
    (∀ (db : DBState) (sid : PyStr) (u : List (PyStr × PyStr)),
      ((managerUpdateStudent db sid u).1).map (fun r => r.student_id) =
        db.map (fun r => r.student_id)) := by
  refine ⟨?_, ?_, ?_, ?_, ?_, ?_⟩
  · intro s u s' h
    exact updateInfo_frame u s s' h
  · intro s u
    exact updateInfo_filter u s
  · intro s v
    constructor
    · show updateInfo s [(str "address", v)] = _
      unfold updateInfo
      rw [if_neg (by decide), if_neg (by decide), if_neg (by decide),
        if_neg (by decide), if_pos rfl]
      rfl
    · show updateInfo s [(str "major", v)] = _
      unfold updateInfo
      rw [if_neg (by decide), if_neg (by decide), if_neg (by decide),
        if_neg (by decide), if_neg (by decide), if_pos rfl]
      rfl
  · intro s v n hv
    show updateInfo s [(str "first_name", v)] = _
    unfold updateInfo
    rw [if_pos rfl, hv]
    rfl
  · intro s v n hv
    show updateInfo s [(str "email", v)] = _
    unfold updateInfo
    rw [if_neg (by decide), if_neg (by decide), if_pos rfl, hv]
    rfl
  · intro db sid u
    unfold managerUpdateStudent
    cases hg : getStudent db sid with
    | error e => rfl
    | ok o =>
      cases o with
      | none => rfl
      | some st =>
        dsimp only
        cases hu : updateInfo st u with
        | error e => rfl
        | ok st' =>
          dsimp only
          exact updateStudentAux_ids (toDict st') db



theorem c8_witness :
    (stuMajored.student_id = stuBase.student_id ∧
     stuMajored.date_of_birth = stuBase.date_of_birth ∧
     stuMajored.gpa = stuBase.gpa ∧
     stuMajored.enrollment_date = stuBase.enrollment_date ∧
     stuMajored.courses = stuBase.courses ∧
     stuMajored.grades = stuBase.grades) ∧
    updateInfo stuBase [(str "first_name", str "  carol ")] =
      .ok { stuBase with first_name := str "Carol" } ∧
    updateInfo stuBase [(str "email", str "Carol@Uni.edu")] =
      .ok { stuBase with email := str "carol@uni.edu" } := by
  refine ⟨?_, ?_, ?_⟩
  · exact c8_update_frame.1 stuBase [(str "major", str " CS ")] stuMajored (by decide)
  · exact c8_update_frame.2.2.2.1 stuBase (str "  carol ") (str "Carol") (by decide)
  · exact c8_update_frame.2.2.2.2.1 stuBase (str "Carol@Uni.edu") (str "carol@uni.edu") (by decide)

/- ===== C6: search semantics ===== -/

theorem matchAll_iff (today : PyDate) (st : Student) :
    ∀ crit : List (PyStr × PyVal),
    (matchAll today st crit = some true ↔
      ∀ c ∈ crit, matchesCrit today st c = some true) := by
  intro crit
  induction crit with
  | nil => simp [matchAll]
  | cons c rest ih =>
    unfold matchAll
    cases hm : matchesCrit today st c with
    | none =>
      simp only [hm]
      constructor
      · intro h; exact absurd h (by simp)
      · intro h
        have := h c (by simp)
        rw [hm] at this
        exact absurd this (by simp)
    | some b =>
      cases b with
      | false =>
        simp only [hm]
        constructor
        · intro h; exact absurd h (by simp)
        · intro h
          have := h c (by simp)
          rw [hm] at this
          simp at this
      | true =>
        simp only [hm]
        constructor
        · intro h d hd
          rcases List.mem_cons.mp hd with h1 | h2
          · subst h1; exact hm
          · exact (ih.mp h) d h2
        · intro h
          exact ih.mpr (fun d hd => h d (List.mem_cons.mpr (Or.inr hd)))

theorem searchFilter_some {today : PyDate} {crit : List (PyStr × PyVal)} :
    ∀ {students res : List Student},
    searchFilter today crit students = some res →
    res = students.filter (fun s => decide (matchAll today s crit = some true)) := by
  intro students
  induction students with
  | nil =>
    intro res h
    unfold searchFilter at h
    have := Option.some.inj h
    rw [← this]
    rfl
  | cons st rest ih =>
    intro res h
    unfold searchFilter at h
    cases hm : matchAll today st crit with
    | none => rw [hm] at h; exact Option.noConfusion h
    | some b =>
      rw [hm] at h
      dsimp only at h
      cases hr : searchFilter today crit rest with
      | none => rw [hr] at h; exact Option.noConfusion h
      | some r =>
        rw [hr] at h
        dsimp only [Option.map] at h
        have hres := (Option.some.inj h).symm
        subst hres
        rw [List.filter_cons]
        cases b with
        | true =>
          rw [hm]
          simp only [if_pos (by decide : (decide (some true = some true)) = true)]
          rw [ih hr]
          simp
        | false =>
          rw [hm]
          simp only [decide_eq_true_eq]
          rw [if_neg (by simp)]
          exact ih hr

theorem searchFilter_nil_crit (today : PyDate) :
    ∀ l : List Student, searchFilter today [] l = some l := by
  intro l
  induction l with
  | nil => rfl
  | cons st rest ih =>
    unfold searchFilter
    rw [show matchAll today st [] = some true from rfl]
    dsimp only
    rw [ih]
    rfl



/-- Claim C6 (amended): search is an AND over the supplied criteria;
    gpa_min/gpa_max are inclusive bounds; empty criteria match everything; the
    gpa_min 3.7 scenario returns exactly the 3.8 and 3.9 records.  Keys that
    name neither a search criterion nor ANY attribute of the entity object
    are ignored; but an unrecognized key that names a non-field attribute —
    a method such as get_age — takes the hasattr fallback, where the bound
    method never equals the criterion value, so it rejects every record. -/
theorem c6_search_semantics :
    (∀ (today : PyDate) (st : Student) (crit : List (PyStr × PyVal)),
      matchAll today st crit = some true ↔
        ∀ c ∈ crit, matchesCrit today st c = some true) ∧
    (∀ (today : PyDate) (db : DBState) (crit : List (PyStr × PyVal))
        (res : List Student), searchStudents today db crit = some res →
      res = (getAllStudents db).filter
        (fun s => decide (matchAll today s crit = some true))) ∧
    (∀ (today : PyDate) (st : Student) (q : ℚ),
      matchesCrit today st (str "gpa_min", PyVal.num q) = some (decide (q ≤ st.gpa)) ∧
      matchesCrit today st (str "gpa_max", PyVal.num q) = some (decide (st.gpa ≤ q))) ∧
    (∀ (today : PyDate) (st : Student) (k : PyStr) (v : PyVal),
      k ∉ searchKeyList → k ∉ studentMethodNames → isDunderName k = false →
      matchesCrit today st (k, v) = some true) ∧
    (∀ (today : PyDate) (st : Student) (k : PyStr) (v : PyVal),
      k ∈ studentMethodNames → matchesCrit today st (k, v) = some false) ∧
    (∀ (today : PyDate) (db : DBState),
      searchStudents today db [] = some (getAllStudents db)) ∧
    searchStudents dToday dbSearch [(str "gpa_min", PyVal.num q37)] =
      some [mkStu "STU001" "2005-09-01" "Cs" q38,
            mkStu "STU003" "1998-03-05" "" q39] := by
  refine ⟨matchAll_iff, ?_, ?_, ?_, ?_, ?_, by decide⟩
  · intro today db crit res h
    exact searchFilter_some h
  · intro today st q
    constructor
    · show matchesCrit today st (str "gpa_min", PyVal.num q) = _
      rw [matchesCrit.eq_def]
      dsimp only
      rw [if_neg (by decide), if_neg (by decide), if_neg (by decide), if_pos rfl]
      congr 1
      simp [not_lt]
    · show matchesCrit today st (str "gpa_max", PyVal.num q) = _
      rw [matchesCrit.eq_def]
      dsimp only
      rw [if_neg (by decide), if_neg (by decide), if_neg (by decide),
        if_neg (by decide), if_pos rfl]
      congr 1
      simp [not_lt]
  · intro today st k v hk hm hd
    simp only [searchKeyList, List.mem_cons, List.mem_singleton] at hk
    push_neg at hk
    obtain ⟨k1, k2, k3, k4, k5, k6, k7, k8, k9, k10, k11, k12, k13, k14, k15,
      k16, k17⟩ := hk
    have hfc : fieldCompare st k v = (false, true) := by
      unfold fieldCompare
      rw [if_neg k8, if_neg k9, if_neg k10, if_neg k3, if_neg k11, if_neg k12,
        if_neg k13, if_neg k2, if_neg k14, if_neg k15, if_neg k16,
        if_neg (by simpa using k17), if_neg (by simp [hm, hd])]
    show matchesCrit today st (k, v) = some true
    rw [matchesCrit.eq_def]
    dsimp only
    rw [if_neg k1, if_neg k2, if_neg k3, if_neg k4, if_neg k5, if_neg k6,
      if_neg k7]
    rw [hfc]
    rfl
  · intro today st k v hk
    have hdisj : ∀ x ∈ studentMethodNames, x ∉ searchKeyList := by decide
    have hns := hdisj k hk
    simp only [searchKeyList, List.mem_cons, List.mem_singleton] at hns
    push_neg at hns
    obtain ⟨k1, k2, k3, k4, k5, k6, k7, k8, k9, k10, k11, k12, k13, k14, k15,
      k16, k17⟩ := hns
    have hfc : fieldCompare st k v = (true, false) := by
      unfold fieldCompare
      rw [if_neg k8, if_neg k9, if_neg k10, if_neg k3, if_neg k11, if_neg k12,
        if_neg k13, if_neg k2, if_neg k14, if_neg k15, if_neg k16,
        if_neg (by simpa using k17), if_pos (Or.inl hk)]
    show matchesCrit today st (k, v) = some false
    rw [matchesCrit.eq_def]
    dsimp only
    rw [if_neg k1, if_neg k2, if_neg k3, if_neg k4, if_neg k5, if_neg k6,
      if_neg k7]
    rw [hfc]
    rfl
  · intro today db
    exact searchFilter_nil_crit today (getAllStudents db)

/-- The original C6 claim is false: `"get_age"` is not a named criterion and
    not a data field (an unrecognized criteria key), the collection is
    non-empty, yet searching on it returns no records — the bound method
    `get_age` never equals 25, so every record is rejected. -/
theorem c6_counterexample :
    str "get_age" ∉ searchKeyList ∧
    (getAllStudents dbSearch).length = 3 ∧
    searchStudents dToday dbSearch [(str "get_age", PyVal.num 25)] = some [] := by
  refine ⟨by decide, by decide, by decide⟩

theorem c6_witness :
    ([mkStu "STU001" "2005-09-01" "Cs" q38, mkStu "STU003" "1998-03-05" "" q39] =
      (getAllStudents dbSearch).filter
        (fun s => decide (matchAll dToday s [(str "gpa_min", PyVal.num q37)] = some true))) ∧
    matchesCrit dToday stuBase (str "favorite_color", PyVal.str (str "blue")) = some true ∧
    matchesCrit dToday stuBase (str "get_age", PyVal.num 25) = some false :=
  ⟨c6_search_semantics.2.1 dToday dbSearch [(str "gpa_min", PyVal.num q37)]
      [mkStu "STU001" "2005-09-01" "Cs" q38, mkStu "STU003" "1998-03-05" "" q39]
      (by decide),
   c6_search_semantics.2.2.2.1 dToday stuBase (str "favorite_color")
      (PyVal.str (str "blue")) (by decide) (by decide) (by decide),
   c6_search_semantics.2.2.2.2.1 dToday stuBase (str "get_age")
      (PyVal.num 25) (by decide)⟩

/- ===== C5: statistics ===== -/







theorem alFind_cons {β : Type} (k' : PyStr) (v' : β) (rest : List (PyStr × β))
    (m : PyStr) :
    alFind ((k', v') :: rest) m = if k' = m then some v' else alFind rest m := rfl

theorem alSet_cons {β : Type} (k' : PyStr) (v' : β) (rest : List (PyStr × β))
    (k : PyStr) (v : β) :
    alSet ((k', v') :: rest) k v =
      if k' = k then (k, v) :: rest else (k', v') :: alSet rest k v := rfl

theorem alFind_alSet {β : Type} (k : PyStr) (v : β) (m : PyStr) :
    ∀ l : List (PyStr × β),
    alFind (alSet l k v) m = if m = k then some v else alFind l m := by
  intro l
  induction l with
  | nil =>
    show alFind [(k, v)] m = _
    rw [alFind_cons]
    by_cases h : m = k
    · rw [if_pos h.symm, if_pos h]
    · rw [if_neg (fun hc => h hc.symm), if_neg h]
  | cons p rest ih =>
    obtain ⟨k2, v2⟩ := p
    rw [alSet_cons]
    by_cases h1 : k2 = k
    · rw [if_pos h1, alFind_cons, alFind_cons]
      by_cases h2 : m = k
      · rw [if_pos h2.symm, if_pos h2]
      · rw [if_neg (fun hc => h2 hc.symm), if_neg h2,
          if_neg (fun hc => h2 (h1 ▸ hc).symm)]
    · rw [if_neg h1, alFind_cons, alFind_cons, ih]
      by_cases h2 : m = k
      · rw [if_pos h2, if_pos h2, if_neg (fun hc => h1 (hc.trans h2))]
      · rw [if_neg h2, if_neg h2]

theorem alGet0_alBump (l : List (PyStr × Nat)) (k m : PyStr) :
    alGet0 (alBump l k) m = alGet0 l m + (if m = k then 1 else 0) := by
  unfold alBump alGet0
  rw [alFind_alSet]
  by_cases h : m = k
  · rw [if_pos h, if_pos h, h]
    rfl
  · rw [if_neg h, if_neg h]
    omega

theorem majors_fold (m : PyStr) : ∀ (students : List Student) (acc : List (PyStr × Nat)),
    alGet0 (students.foldl (fun mm s => alBump mm (majorLabel s)) acc) m =
      alGet0 acc m + students.countP (fun s => decide (majorLabel s = m)) := by
  intro students
  induction students with
  | nil => intro acc; simp [List.countP_nil]
  | cons st rest ih =>
    intro acc
    rw [List.foldl_cons, ih, List.countP_cons, alGet0_alBump]
    by_cases h : majorLabel st = m
    · rw [if_pos (by rw [h]), if_pos (by simpa using h)]
      omega
    · rw [if_neg (by intro hc; exact h hc.symm), if_neg (by simpa using h)]
      omega

theorem ageFold_counts (today : PyDate) : ∀ (students : List Student)
    (acc dist : AgeDist), ageFold today students acc = some dist →
    dist.r18_20 = acc.r18_20 +
      students.countP (fun s => decide (inB1 (ageOf today s))) ∧
    dist.r21_25 = acc.r21_25 +
      students.countP (fun s => decide (¬ inB1 (ageOf today s) ∧ inB2 (ageOf today s))) ∧
    dist.r26_30 = acc.r26_30 +
      students.countP (fun s => decide (¬ inB1 (ageOf today s) ∧ ¬ inB2 (ageOf today s) ∧ inB3 (ageOf today s))) ∧
    dist.r30plus = acc.r30plus +
      students.countP (fun s => decide (¬ inB1 (ageOf today s) ∧ ¬ inB2 (ageOf today s) ∧ ¬ inB3 (ageOf today s))) := by
  intro students
  induction students with
  | nil =>
    intro acc dist h
    unfold ageFold at h
    have := Option.some.inj h
    subst this
    simp [List.countP_nil]
  | cons st rest ih =>
    intro acc dist h
    unfold ageFold at h
    cases ha : studentAge today st with
    | none => rw [ha] at h; exact Option.noConfusion h
    | some a =>
      rw [ha] at h
      dsimp only at h
      have hage : ageOf today st = a := by
        unfold ageOf
        rw [ha]
        rfl
      obtain ⟨i1, i2, i3, i4⟩ := ih (bumpAge acc a) dist h
      rw [List.countP_cons, List.countP_cons, List.countP_cons, List.countP_cons]
      unfold bumpAge at i1 i2 i3 i4
      by_cases b1 : 18 ≤ a ∧ a ≤ 20
      · rw [if_pos b1] at i1 i2 i3 i4
        dsimp only at i1 i2 i3 i4
        rw [i1, i2, i3, i4, hage]
        rw [if_pos (by simp [inB1, b1]), if_neg (by simp [inB1, b1]),
          if_neg (by simp [inB1, b1]), if_neg (by simp [inB1, b1])]
        omega
      · rw [if_neg b1] at i1 i2 i3 i4
        by_cases b2 : 21 ≤ a ∧ a ≤ 25
        · rw [if_pos b2] at i1 i2 i3 i4
          dsimp only at i1 i2 i3 i4
          rw [i1, i2, i3, i4, hage]
          rw [if_neg (by simp [inB1, b1]), if_pos (by simp [inB1, inB2, b1, b2]),
            if_neg (by simp [inB2, b2]), if_neg (by simp [inB2, b2])]
          omega
        · rw [if_neg b2] at i1 i2 i3 i4
          by_cases b3 : 26 ≤ a ∧ a ≤ 30
          · rw [if_pos b3] at i1 i2 i3 i4
            dsimp only at i1 i2 i3 i4
            rw [i1, i2, i3, i4, hage]
            rw [if_neg (by simp [inB1, b1]), if_neg (by simp [inB2, b2]),
              if_pos (by simp [inB1, inB2, inB3, b1, b2, b3]),
              if_neg (by simp [inB3, b3])]
            omega
          · rw [if_neg b3] at i1 i2 i3 i4
            dsimp only at i1 i2 i3 i4
            rw [i1, i2, i3, i4, hage]
            rw [if_neg (by simp [inB1, b1]), if_neg (by simp [inB2, b2]),
              if_neg (by simp [inB3, b3]), if_pos (by simp [inB1, inB2, inB3, b1, b2, b3])]
            omega

/-- Claim C5 (amended): for every non-empty loaded collection, statistics
    returns the record count, the average gpa over exactly the records with
    gpa > 0 rounded to two decimals (0.0 rounded when there are none), a
    major-to-count map labelling empty majors "Undeclared", and the fixed
    inclusive age buckets with everything unmatched (including ages below 18)
    counted in 30+; the ages [19, 22, 27, 35] scenario yields one count per
    bucket. -/
theorem c5_statistics :
    (∀ (today : PyDate) (db : DBState) (stats : Stats),
      getAllStudents db ≠ [] → getStatistics today db = some stats →
      stats.total_students = (getAllStudents db).length ∧
      stats.average_gpa = pyRound2 (
        if 0 < ((getAllStudents db).filter (fun s => decide (0 < s.gpa))).length
        then (((getAllStudents db).filter (fun s => decide (0 < s.gpa))).map
            (fun s => s.gpa)).sum /
          ((((getAllStudents db).filter (fun s => decide (0 < s.gpa))).length : ℚ))
        else 0) ∧
      (∀ m : PyStr, alGet0 stats.majors m =
        (getAllStudents db).countP (fun s => decide (majorLabel s = m))) ∧
      stats.age_distribution.r18_20 =
        (getAllStudents db).countP (fun s => decide (inB1 (ageOf today s))) ∧
      stats.age_distribution.r21_25 =
        (getAllStudents db).countP (fun s => decide (inB2 (ageOf today s))) ∧
      stats.age_distribution.r26_30 =
        (getAllStudents db).countP (fun s => decide (inB3 (ageOf today s))) ∧
      stats.age_distribution.r30plus =
        (getAllStudents db).countP (fun s => decide (¬ inB1 (ageOf today s) ∧
          ¬ inB2 (ageOf today s) ∧ ¬ inB3 (ageOf today s)))) ∧
    (getStatistics dToday dbAges).map (fun st => st.age_distribution) =
      some ⟨1, 1, 1, 1⟩ := by
  constructor
  · intro today db stats hne h
    unfold getStatistics at h
    dsimp only at h
    rw [if_neg hne] at h
    cases haf : ageFold today (getAllStudents db) ⟨0, 0, 0, 0⟩ with
    | none => rw [haf] at h; exact Option.noConfusion h
    | some dist =>
      rw [haf] at h
      dsimp only [Option.map] at h
      have hst := (Option.some.inj h).symm
      subst hst
      obtain ⟨a1, a2, a3, a4⟩ :=
        ageFold_counts today (getAllStudents db) ⟨0, 0, 0, 0⟩ dist haf
      refine ⟨rfl, rfl, ?_, ?_, ?_, ?_, ?_⟩
      · intro m
        have hm := majors_fold m (getAllStudents db) []
        simpa [alGet0, alFind] using hm
      · simpa using a1
      · rw [show (⟨(getAllStudents db).length, _, _, dist⟩ : Stats).age_distribution
          = dist from rfl]
        rw [a2]
        have : ∀ s ∈ getAllStudents db,
            decide (¬ inB1 (ageOf today s) ∧ inB2 (ageOf today s)) = true ↔
            decide (inB2 (ageOf today s)) = true := by
          intro s _
          simp only [decide_eq_true_eq]
          unfold inB1 inB2
          omega
        rw [List.countP_congr this]
        simp
      · rw [show (⟨(getAllStudents db).length, _, _, dist⟩ : Stats).age_distribution
          = dist from rfl]
        rw [a3]
        have : ∀ s ∈ getAllStudents db,
            decide (¬ inB1 (ageOf today s) ∧ ¬ inB2 (ageOf today s) ∧
              inB3 (ageOf today s)) = true ↔
            decide (inB3 (ageOf today s)) = true := by
          intro s _
          simp only [decide_eq_true_eq]
          unfold inB1 inB2 inB3
          omega
        rw [List.countP_congr this]
        simp
      · simpa using a4
  · decide

theorem pyRound2_four_thirds : pyRound2 ((4 : ℚ) / 3) = 133 / 100 := by
  unfold pyRound2 roundHalfEven
  have hfl : ⌊(100 * ((4 : ℚ) / 3))⌋ = 133 := by
    rw [Int.floor_eq_iff]
    constructor <;> norm_num
  rw [hfl]
  rw [if_pos (by norm_num)]
  norm_num

theorem c5_counterexample :
    (getStatistics dToday dbThird).map (fun st => st.average_gpa) =
      some ((133 : ℚ) / 100) ∧
    ((133 : ℚ) / 100) ≠ ((1 : ℚ) + 1 + 2) / 3 := by
  constructor
  · have hs : getAllStudents dbThird =
        [mkStu "STU001" "2005-09-01" "" 1, mkStu "STU002" "2003-01-10" "" 1,
         mkStu "STU003" "1998-03-05" "" 2] := by decide
    unfold getStatistics
    dsimp only
    rw [hs]
    rw [if_neg (by decide)]
    have hf : List.filter (fun s => decide (0 < s.gpa))
        [mkStu "STU001" "2005-09-01" "" 1, mkStu "STU002" "2003-01-10" "" 1,
         mkStu "STU003" "1998-03-05" "" 2] =
        [mkStu "STU001" "2005-09-01" "" 1, mkStu "STU002" "2003-01-10" "" 1,
         mkStu "STU003" "1998-03-05" "" 2] := by decide
    rw [hf]
    rw [if_pos (by decide)]
    have ha : ageFold dToday
        [mkStu "STU001" "2005-09-01" "" 1, mkStu "STU002" "2003-01-10" "" 1,
         mkStu "STU003" "1998-03-05" "" 2] ⟨0, 0, 0, 0⟩ = some ⟨1, 1, 1, 0⟩ := by
      decide
    rw [ha]
    dsimp only [Option.map]
    have hsum : (List.map (fun s => s.gpa)
        [mkStu "STU001" "2005-09-01" "" 1, mkStu "STU002" "2003-01-10" "" 1,
         mkStu "STU003" "1998-03-05" "" 2]).sum / ((List.length
        [mkStu "STU001" "2005-09-01" "" 1, mkStu "STU002" "2003-01-10" "" 1,
         mkStu "STU003" "1998-03-05" "" 2] : Nat) : ℚ) = (4 : ℚ) / 3 := by
      norm_num [mkStu]
    rw [hsum, pyRound2_four_thirds]
  · norm_num





theorem pyRound2_zero : pyRound2 0 = 0 := by
  unfold pyRound2 roundHalfEven
  norm_num

theorem getStatistics_dbW : getStatistics dToday dbW = some statsW := by
  have hs : getAllStudents dbW = [mkStu "STU005" "2005-09-01" "" 0] := by decide
  unfold getStatistics
  dsimp only
  rw [hs]
  rw [if_neg (by decide)]
  have hf : List.filter (fun s => decide (0 < s.gpa))
      [mkStu "STU005" "2005-09-01" "" 0] = [] := by decide
  rw [hf]
  rw [if_neg (by decide)]
  have ha : ageFold dToday [mkStu "STU005" "2005-09-01" "" 0] ⟨0, 0, 0, 0⟩ =
      some ⟨1, 0, 0, 0⟩ := by decide
  rw [ha]
  dsimp only [Option.map]
  rw [pyRound2_zero]
  decide

theorem c5_witness :
    statsW.total_students = (getAllStudents dbW).length :=
  (c5_statistics.1 dToday dbW statsW (by decide) getStatistics_dbW).1
